import Mathlib

/-!
Verification of the cell-sim truncated-octahedron lattice engine.

This file gives a shallow embedding, over exact rationals, of:
* the dense/coordinate `OctahedronGrid` (coordinate mapper, snapping, dense
  slot table, reverse id-to-position map);
* the spatial-hash `OctahedronGrid` (bucketed cell table with an epsilon
  position test and a truncating quantisation hash);
* `BoundaryManager` / `RectangleBoundary`;
* `TruncatedOctahedraManager` (cell store `TransformData`, `addOctahedron`,
  visibility full rescan and incremental update, growth tick, pending-change
  application).

Machine `float` arithmetic is idealised as exact rational arithmetic; every
numeric literal of the source is carried over as the corresponding exact
rational.  Randomness is modelled by explicit draw oracles.  The parallel
loops of the source mutate disjoint cells (or commute), and are modelled by
sequential folds.
-/

/-- A 3-component vector over ℚ, standing in for raylib `Vector3`. -/
structure Vec3 where
  x : ℚ
  y : ℚ
  z : ℚ
deriving DecidableEq, Repr

/-- Componentwise sum, standing in for raymath `Vector3Add`. -/
def Vector3Add (a b : Vec3) : Vec3 :=
  ⟨a.x + b.x, a.y + b.y, a.z + b.z⟩

/-- Scalar multiple, standing in for raymath `Vector3Scale`. -/
def Vector3Scale (v : Vec3) (k : ℚ) : Vec3 :=
  ⟨v.x * k, v.y * k, v.z * k⟩

/-- Componentwise negation. -/
def Vector3Neg (v : Vec3) : Vec3 :=
  ⟨-v.x, -v.y, -v.z⟩

/-- Squared Euclidean distance.  The source compares
`Vector3Distance(a, b) < eps`; we compare `dist2 a b < eps ^ 2`, which is
equivalent for `eps > 0`. -/
def dist2 (a b : Vec3) : ℚ :=
  (a.x - b.x) ^ 2 + (a.y - b.y) ^ 2 + (a.z - b.z) ^ 2

/-- C `roundf`: round to nearest, ties away from zero. -/
def roundf (q : ℚ) : ℤ :=
  if 0 ≤ q then ⌊q + 1 / 2⌋ else ⌈q - 1 / 2⌉

/-- C truncating cast from a floating value to a signed integer
(`static_cast<int>` / `static_cast<int64_t>`): rounds toward zero. -/
def cppTrunc (q : ℚ) : ℤ :=
  if 0 ≤ q then ⌊q⌋ else ⌈q⌉

namespace DenseGrid

/-- `OctahedronGrid::SQUARE_DISTANCE` of the dense/coordinate grid:
`2.0f * 2.82842712475f`. -/
def SQUARE_DISTANCE : ℚ := 2 * (282842712475 / 100000000000)

/-- `OctahedronGrid::HEXAGON_DISTANCE` of the dense/coordinate grid:
`SQUARE_DISTANCE * 0.866025404f`. -/
def HEXAGON_DISTANCE : ℚ := SQUARE_DISTANCE * (866025404 / 1000000000)

/-- Dense `OctahedronGrid::snapToGridPosition`: round every component to the
nearest multiple of `SQUARE_DISTANCE * 0.5f`. -/
def snapToGridPosition (position : Vec3) : Vec3 :=
  let halfSquareDist : ℚ := SQUARE_DISTANCE * (1 / 2)
  ⟨(roundf (position.x / halfSquareDist) : ℚ) * halfSquareDist,
   (roundf (position.y / halfSquareDist) : ℚ) * halfSquareDist,
   (roundf (position.z / halfSquareDist) : ℚ) * halfSquareDist⟩

/-- Dense `OctahedronGrid::positionToCoordinates`.  The local variable the
source calls `halfSquareDist` holds the full `SQUARE_DISTANCE` there; the
layer test `y % 2 != 0` is the mathematical oddness test, and Lean's `Int`
`%` agrees with C on `!= 0` for negative operands. -/
def positionToCoordinates (pos : Vec3) : ℤ × ℤ × ℤ :=
  let y : ℤ := roundf (pos.y / SQUARE_DISTANCE * 2)
  let adjustedX : ℚ := if y % 2 ≠ 0 then pos.x - SQUARE_DISTANCE * (1 / 2) else pos.x
  let adjustedZ : ℚ := if y % 2 ≠ 0 then pos.z - SQUARE_DISTANCE * (1 / 2) else pos.z
  (roundf (adjustedX / SQUARE_DISTANCE), y, roundf (adjustedZ / SQUARE_DISTANCE))

/-- Dense `OctahedronGrid::coordinatesToPosition`. -/
def coordinatesToPosition (x y z : ℤ) : Vec3 :=
  let worldX : ℚ := (x : ℚ) * SQUARE_DISTANCE
  let worldZ : ℚ := (z : ℚ) * SQUARE_DISTANCE
  let worldY : ℚ := (y : ℚ) * SQUARE_DISTANCE * (1 / 2)
  if y % 2 ≠ 0 then
    ⟨worldX + SQUARE_DISTANCE * (1 / 2), worldY, worldZ + SQUARE_DISTANCE * (1 / 2)⟩
  else
    ⟨worldX, worldY, worldZ⟩

end DenseGrid

/-- The dense `OctahedronGrid` state: grid dimensions, the flat slot table
(slot `SIZE_MAX` sentinel becomes `Option`), and the reverse id-to-position
map (`std::unordered_map` becomes an optional-valued function). -/
structure DenseGrid where
  gridLength : ℕ
  gridWidth : ℕ
  gridHeight : ℕ
  grid : ℕ → Option ℕ × Vec3
  indexToPositionMap : ℕ → Option Vec3

namespace DenseGrid

/-- Default-constructed dense grid (`50 × 50 × 50`, all slots empty). -/
def emptyGrid : DenseGrid where
  gridLength := 50
  gridWidth := 50
  gridHeight := 50
  grid := fun _ => (none, ⟨0, 0, 0⟩)
  indexToPositionMap := fun _ => none

/-- Dense `OctahedronGrid::isValidCoordinate`. -/
def isValidCoordinate (g : DenseGrid) (x y z : ℤ) : Bool :=
  decide (0 ≤ x ∧ x < (g.gridLength : ℤ) ∧ 0 ≤ y ∧ y < (g.gridHeight : ℤ) ∧
    0 ≤ z ∧ z < (g.gridWidth : ℤ))

/-- Dense `OctahedronGrid::positionToIndex`; the `SIZE_MAX` failure value
becomes `none`.  For valid coordinates the computed flat index is always
below the table size, so the source's `index >= grid.size()` test is
exactly the validity test. -/
def positionToIndex (g : DenseGrid) (pos : Vec3) : Option ℕ :=
  let c := positionToCoordinates pos
  if isValidCoordinate g c.1 c.2.1 c.2.2 then
    some (c.2.1 * g.gridLength * g.gridWidth + c.2.2 * g.gridLength + c.1).toNat
  else
    none

/-- Dense `OctahedronGrid::insert`.  Note that the source stores into the
slot unconditionally: there is no occupancy check here. -/
def insert (g : DenseGrid) (worldPos : Vec3) (cellIndex : ℕ) : DenseGrid :=
  let snappedPos := snapToGridPosition worldPos
  match positionToIndex g snappedPos with
  | none => g
  | some index =>
    { g with
      grid := fun i => if i = index then (some cellIndex, snappedPos) else g.grid i
      indexToPositionMap := fun i =>
        if i = cellIndex then some snappedPos else g.indexToPositionMap i }

/-- Dense `OctahedronGrid::isOccupied`. -/
def isOccupied (g : DenseGrid) (worldPos : Vec3) : Bool :=
  match positionToIndex g (snapToGridPosition worldPos) with
  | none => false
  | some index => (g.grid index).1.isSome

/-- Dense `OctahedronGrid::findCellIndex`; `SIZE_MAX` becomes `none`. -/
def findCellIndex (g : DenseGrid) (worldPos : Vec3) : Option ℕ :=
  match positionToIndex g (snapToGridPosition worldPos) with
  | none => none
  | some index => (g.grid index).1

/-- Dense `OctahedronGrid::getPositionForIndex`: reverse-map lookup with the
documented `(0, 0, 0)` fallback for unknown ids. -/
def getPositionForIndex (g : DenseGrid) (cellIndex : ℕ) : Vec3 :=
  (g.indexToPositionMap cellIndex).getD ⟨0, 0, 0⟩

/-- Dense `OctahedronGrid::getNeighborPositions`: 6 "square" coordinate
steps followed by 8 "hexagonal" coordinate steps, each kept when the
stepped coordinate is valid (and, when `filterOccupied`, unoccupied). -/
def getNeighborPositions (g : DenseGrid) (pos : Vec3) (filterOccupied : Bool) :
    List Vec3 :=
  let snappedPos := snapToGridPosition pos
  let c := positionToCoordinates snappedPos
  let x := c.1
  let y := c.2.1
  let z := c.2.2
  let squareDirs : List (ℤ × ℤ × ℤ) :=
    [(x - 1, y, z), (x + 1, y, z), (x, y, z - 1), (x, y, z + 1),
     (x, y - 1, z), (x, y + 1, z)]
  let hexDirs : List (ℤ × ℤ × ℤ) :=
    [(x - 1, y + 1, z - 1), (x, y + 1, z - 1), (x, y + 1, z), (x - 1, y + 1, z),
     (x - 1, y - 1, z - 1), (x, y - 1, z - 1), (x, y - 1, z), (x - 1, y - 1, z)]
  (squareDirs ++ hexDirs).filterMap fun d =>
    if isValidCoordinate g d.1 d.2.1 d.2.2 then
      let neighborPos := coordinatesToPosition d.1 d.2.1 d.2.2
      if !filterOccupied || !isOccupied g neighborPos then some neighborPos else none
    else
      none

end DenseGrid

namespace HashGrid

/-- Spatial-hash `OctahedronGrid::SQUARE_DISTANCE`: `2.0f * 2.828f`. -/
def SQUARE_DISTANCE : ℚ := 2 * (2828 / 1000)

/-- Spatial-hash `OctahedronGrid::HEXAGON_DISTANCE`:
`SQUARE_DISTANCE * 0.866025404f`. -/
def HEXAGON_DISTANCE : ℚ := SQUARE_DISTANCE * (866025404 / 1000000000)

/-- `OctahedronGrid::POSITION_EPSILON = 0.001f`. -/
def POSITION_EPSILON : ℚ := 1 / 1000

/-- `OctahedronGrid::HASH_TABLE_SIZE = 262144`. -/
def HASH_TABLE_SIZE : ℕ := 262144

/-- The `0.577350269f` normalisation constant of the hex directions. -/
def hexNormConst : ℚ := 577350269 / 1000000000

/-- `OctahedronGrid::positionToHashIndex`: truncate each component to an
`int64` lattice cell, combine with prime multipliers and xor, mask to 31
bits, reduce modulo the table size.  The `int64` two's-complement xor and
mask are computed on 64-bit vectors. -/
def positionToHashIndex (pos : Vec3) : ℕ :=
  let cellSize : ℚ := SQUARE_DISTANCE * (1 / 2)
  let x : ℤ := cppTrunc (pos.x / cellSize)
  let y : ℤ := cppTrunc (pos.y / cellSize)
  let z : ℤ := cppTrunc (pos.z / cellSize)
  let hx : BitVec 64 := BitVec.ofInt 64 (x * 73856093)
  let hy : BitVec 64 := BitVec.ofInt 64 (y * 19349663)
  let hz : BitVec 64 := BitVec.ofInt 64 (z * 83492791)
  (((hx ^^^ hy ^^^ hz) &&& BitVec.ofNat 64 0x7FFFFFFF).toNat) % HASH_TABLE_SIZE

/-- `OctahedronGrid::CellData` of the spatial-hash grid. -/
structure CellData where
  cellIndex : ℕ
  position : Vec3
deriving DecidableEq, Repr

/-- The epsilon test `Vector3Distance(cell.position, worldPos) < POSITION_EPSILON`,
stated on squared distances. -/
def closeEnough (cell : CellData) (worldPos : Vec3) : Bool :=
  decide (dist2 cell.position worldPos < POSITION_EPSILON ^ 2)

end HashGrid

/-- The spatial-hash `OctahedronGrid`: a table of buckets of cells. -/
structure HashGrid where
  spatialHash : ℕ → List HashGrid.CellData

namespace HashGrid

/-- Default-constructed spatial-hash grid: every bucket empty. -/
def emptyGrid : HashGrid where
  spatialHash := fun _ => []

/-- Spatial-hash `OctahedronGrid::insert`: append the cell to its bucket.
No occupancy check is performed here. -/
def insert (g : HashGrid) (worldPos : Vec3) (cellIndex : ℕ) : HashGrid where
  spatialHash := fun b =>
    if b = positionToHashIndex worldPos then
      g.spatialHash b ++ [⟨cellIndex, worldPos⟩]
    else
      g.spatialHash b

/-- Spatial-hash `OctahedronGrid::isOccupied`: scan the position's bucket
for a cell within `POSITION_EPSILON`. -/
def isOccupied (g : HashGrid) (worldPos : Vec3) : Bool :=
  (g.spatialHash (positionToHashIndex worldPos)).any fun cell =>
    closeEnough cell worldPos

/-- Spatial-hash `OctahedronGrid::findCellIndex`: first cell of the bucket
within `POSITION_EPSILON`; `SIZE_MAX` becomes `none`. -/
def findCellIndex (g : HashGrid) (worldPos : Vec3) : Option ℕ :=
  ((g.spatialHash (positionToHashIndex worldPos)).find? fun cell =>
    closeEnough cell worldPos).map CellData.cellIndex

/-- The 8 hex direction unit vectors `{±s, ±s, ±s}` in source order. -/
def hexDirs : List Vec3 :=
  [⟨hexNormConst, hexNormConst, hexNormConst⟩,
   ⟨-hexNormConst, hexNormConst, hexNormConst⟩,
   ⟨hexNormConst, -hexNormConst, hexNormConst⟩,
   ⟨hexNormConst, hexNormConst, -hexNormConst⟩,
   ⟨-hexNormConst, -hexNormConst, hexNormConst⟩,
   ⟨-hexNormConst, hexNormConst, -hexNormConst⟩,
   ⟨hexNormConst, -hexNormConst, -hexNormConst⟩,
   ⟨-hexNormConst, -hexNormConst, -hexNormConst⟩]

/-- Static spatial-hash `OctahedronGrid::getNeighborPositions`: the 6
axis-aligned square-face neighbors followed by the 8 hex-face neighbors. -/
def getNeighborPositions (pos : Vec3) : List Vec3 :=
  [⟨pos.x + SQUARE_DISTANCE, pos.y, pos.z⟩,
   ⟨pos.x - SQUARE_DISTANCE, pos.y, pos.z⟩,
   ⟨pos.x, pos.y + SQUARE_DISTANCE, pos.z⟩,
   ⟨pos.x, pos.y - SQUARE_DISTANCE, pos.z⟩,
   ⟨pos.x, pos.y, pos.z + SQUARE_DISTANCE⟩,
   ⟨pos.x, pos.y, pos.z - SQUARE_DISTANCE⟩] ++
  hexDirs.map fun d => Vector3Add pos (Vector3Scale d HEXAGON_DISTANCE)

/-- Spatial-hash `OctahedronGrid::getOccupiedNeighbors`: for each of the 14
neighbor positions, the first cell of its bucket within
`POSITION_EPSILON`, if any. -/
def getOccupiedNeighbors (g : HashGrid) (pos : Vec3) : List CellData :=
  (getNeighborPositions pos).filterMap fun neighborPos =>
    (g.spatialHash (positionToHashIndex neighborPos)).find? fun cell =>
      closeEnough cell neighborPos

/-- `OctahedronGrid::NeighborAvailability`. -/
structure NeighborAvailability where
  positions : List Vec3
  squareFaces : ℤ
  hexagonFaces : ℤ

/-- Spatial-hash `OctahedronGrid::getAvailableNeighborsWithStats`: the
unoccupied square neighbors (with count) followed by the unoccupied hex
neighbors (with count). -/
def getAvailableNeighborsWithStats (g : HashGrid) (pos : Vec3) :
    NeighborAvailability :=
  let squareNeighbors : List Vec3 :=
    [⟨pos.x + SQUARE_DISTANCE, pos.y, pos.z⟩,
     ⟨pos.x - SQUARE_DISTANCE, pos.y, pos.z⟩,
     ⟨pos.x, pos.y + SQUARE_DISTANCE, pos.z⟩,
     ⟨pos.x, pos.y - SQUARE_DISTANCE, pos.z⟩,
     ⟨pos.x, pos.y, pos.z + SQUARE_DISTANCE⟩,
     ⟨pos.x, pos.y, pos.z - SQUARE_DISTANCE⟩]
  let sqAvail := squareNeighbors.filter fun q => !isOccupied g q
  let hexPositions :=
    hexDirs.map fun d => Vector3Add pos (Vector3Scale d HEXAGON_DISTANCE)
  let hexAvail := hexPositions.filter fun q => !isOccupied g q
  ⟨sqAvail ++ hexAvail, sqAvail.length, hexAvail.length⟩

/-- The 14 neighbor displacement vectors of the spatial-hash grid, in the
order produced by `getNeighborPositions`. -/
def neighborOffsets : List Vec3 :=
  [⟨SQUARE_DISTANCE, 0, 0⟩, ⟨-SQUARE_DISTANCE, 0, 0⟩,
   ⟨0, SQUARE_DISTANCE, 0⟩, ⟨0, -SQUARE_DISTANCE, 0⟩,
   ⟨0, 0, SQUARE_DISTANCE⟩, ⟨0, 0, -SQUARE_DISTANCE⟩] ++
  hexDirs.map fun d => Vector3Scale d HEXAGON_DISTANCE

end HashGrid

namespace DenseGrid

/-- Apply a list of `(position, id)` insert operations to a dense grid. -/
def applyInserts (g : DenseGrid) (ops : List (Vec3 × ℕ)) : DenseGrid :=
  ops.foldl (fun t op => t.insert op.1 op.2) g

end DenseGrid

/-- `RectangleBoundary`. -/
structure RectangleBoundary where
  center : Vec3
  width : ℚ
  depth : ℚ
  height : ℚ
  isResizable : Bool

/-- `RectangleBoundary::contains`. -/
def RectangleBoundary.contains (b : RectangleBoundary) (point : Vec3) : Bool :=
  decide (point.x ≥ b.center.x - b.width / 2 ∧ point.x ≤ b.center.x + b.width / 2 ∧
    point.y ≥ b.center.y - b.height / 2 ∧ point.y ≤ b.center.y + b.height / 2 ∧
    point.z ≥ b.center.z - b.depth / 2 ∧ point.z ≤ b.center.z + b.depth / 2)

/-- `BoundaryManager` state: the owned boundary (the null shared pointer
becomes `none`), the visibility flag and the enabled flag. -/
structure BoundaryManager where
  boundary : Option RectangleBoundary
  showBoundary : Bool
  boundaryEnabled : Bool

namespace BoundaryManager

/-- Default-constructed `BoundaryManager`: a `700 × 700 × 50` rectangle
with its corner near the origin, visible and enabled. -/
def defaultManager : BoundaryManager where
  boundary := some
    { center := ⟨700 / 2 + 10, 50 / 2 + 10, 700 / 2 + 10⟩
      width := 700
      depth := 700
      height := 50
      isResizable := true }
  showBoundary := true
  boundaryEnabled := true

/-- A `BoundaryManager` whose enabled flag has been toggled off
(`toggleBoundaryEnabled`) and whose boundary pointer is null: the
unconstrained configuration. -/
def disabledManager : BoundaryManager where
  boundary := none
  showBoundary := true
  boundaryEnabled := false

/-- `BoundaryManager::isPointWithinBoundary`: `true` when disabled or when
no boundary exists, otherwise delegate to the rectangle. -/
def isPointWithinBoundary (bm : BoundaryManager) (point : Vec3) : Bool :=
  if !bm.boundaryEnabled || bm.boundary.isNone then
    true
  else
    match bm.boundary with
    | some b => b.contains point
    | none => true

end BoundaryManager

/-- `TransformData`: the columnar cell store.  The three coordinate columns
are modelled as a single `Vec3` column; the vectors become total functions
together with the common length `size`. -/
structure TransformData where
  positions : ℕ → Vec3
  is_visible : ℕ → Bool
  neighbor_counts : ℕ → ℤ
  size : ℕ

namespace TransformData

/-- Empty `TransformData`. -/
def empty : TransformData where
  positions := fun _ => ⟨0, 0, 0⟩
  is_visible := fun _ => true
  neighbor_counts := fun _ => 0
  size := 0

/-- `TransformData::add`: append a record with `visible = true`,
`neighborCount = 0`. -/
def add (td : TransformData) (pos : Vec3) : TransformData where
  positions := fun i => if i = td.size then pos else td.positions i
  is_visible := fun i => if i = td.size then true else td.is_visible i
  neighbor_counts := fun i => if i = td.size then 0 else td.neighbor_counts i
  size := td.size + 1

/-- `TransformData::getPosition`. -/
def getPosition (td : TransformData) (index : ℕ) : Vec3 :=
  td.positions index

/-- `TransformData::setVisibility`. -/
def setVisibility (td : TransformData) (index : ℕ) (visible : Bool) :
    TransformData :=
  { td with is_visible := fun i => if i = index then visible else td.is_visible i }

/-- `TransformData::setNeighborCount`. -/
def setNeighborCount (td : TransformData) (index : ℕ) (count : ℤ) :
    TransformData :=
  { td with neighbor_counts := fun i => if i = index then count else td.neighbor_counts i }

end TransformData

/-- `TruncatedOctahedraManager` state (rendering resources omitted; the
random generators become explicit oracles at the call sites). -/
structure ManagerState where
  transforms : TransformData
  grid : HashGrid
  pendingNewPositions : List Vec3
  boundaryManager : BoundaryManager
  squareFacePlacements : ℕ
  hexagonFacePlacements : ℕ
  totalSquareFacesAvailable : ℤ
  totalHexagonFacesAvailable : ℤ

namespace Manager

/-- `TruncatedOctahedraManager::SPAWN_CHANCE = 0.1f`. -/
def SPAWN_CHANCE : ℚ := 1 / 10

/-- A manager state with no cells and no pending changes over a given
boundary manager. -/
def initialState (bm : BoundaryManager) : ManagerState where
  transforms := TransformData.empty
  grid := HashGrid.emptyGrid
  pendingNewPositions := []
  boundaryManager := bm
  squareFacePlacements := 0
  hexagonFacePlacements := 0
  totalSquareFacesAvailable := 0
  totalHexagonFacesAvailable := 0

/-- `TruncatedOctahedraManager::isWithinBoundary`. -/
def isWithinBoundary (s : ManagerState) (pos : Vec3) : Bool :=
  s.boundaryManager.isPointWithinBoundary pos

/-- `TruncatedOctahedraManager::addOctahedron`: append a cell and insert it
into the grid when the slot is free and inside the boundary. -/
def addOctahedron (s : ManagerState) (pos : Vec3) : ManagerState :=
  if !HashGrid.isOccupied s.grid pos && isWithinBoundary s pos then
    let index := s.transforms.size
    { s with
      transforms := s.transforms.add pos
      grid := HashGrid.insert s.grid pos index }
  else
    s

/-- `TruncatedOctahedraManager::getAvailableNeighborPositions`: grid
availability statistics (the `const_cast` counter updates) plus the
boundary filter.  Returns the filtered positions and the state with the
updated counters. -/
def getAvailableNeighborPositions (s : ManagerState) (pos : Vec3) :
    List Vec3 × ManagerState :=
  let r := HashGrid.getAvailableNeighborsWithStats s.grid pos
  let s2 := { s with
    totalSquareFacesAvailable := s.totalSquareFacesAvailable + r.squareFaces
    totalHexagonFacesAvailable := s.totalHexagonFacesAvailable + r.hexagonFaces }
  (r.positions.filter fun neighborPos =>
    s.boundaryManager.isPointWithinBoundary neighborPos, s2)

/-- `TruncatedOctahedraManager::updateCellVisibility`. -/
def updateCellVisibility (s : ManagerState) (idx : ℕ) : ManagerState :=
  let pos := s.transforms.getPosition idx
  let neighbors := HashGrid.getOccupiedNeighbors s.grid pos
  let neighborCount : ℤ := neighbors.length
  let td := s.transforms.setVisibility idx (decide (neighborCount < 14))
  { s with transforms := td.setNeighborCount idx neighborCount }

/-- `TruncatedOctahedraManager::updateVisibility`: full rescan over every
cell (the parallel loop recomputes disjoint cells; modelled as a fold). -/
def updateVisibility (s : ManagerState) : ManagerState :=
  (List.range s.transforms.size).foldl updateCellVisibility s

/-- First pass of one chunk of
`TruncatedOctahedraManager::updateVisibilityForNewCells`: recompute each
new position's own cell, when the grid resolves it. -/
def refreshOwnCells (s : ManagerState) (chunk : List Vec3) : ManagerState :=
  chunk.foldl
    (fun t pos =>
      match HashGrid.findCellIndex t.grid pos with
      | some idx => updateCellVisibility t idx
      | none => t)
    s

/-- Second pass of one chunk: the deduplicated set of occupied-neighbor
cell indices of the chunk's positions (`std::unordered_set` becomes a
duplicate-free list). -/
def collectNeighborIndices (g : HashGrid) (chunk : List Vec3) : List ℕ :=
  chunk.foldl
    (fun acc pos =>
      (HashGrid.getNeighborPositions pos).foldl
        (fun acc2 neighborPos =>
          if HashGrid.isOccupied g neighborPos then
            match HashGrid.findCellIndex g neighborPos with
            | some neighborIdx =>
                if neighborIdx ∈ acc2 then acc2 else acc2 ++ [neighborIdx]
            | none => acc2
          else acc2)
        acc)
    []

/-- One chunk of `updateVisibilityForNewCells`: pass 1 then pass 2. -/
def processChunk (s : ManagerState) (chunk : List Vec3) : ManagerState :=
  let s1 := refreshOwnCells s chunk
  (collectNeighborIndices s1.grid chunk).foldl updateCellVisibility s1

/-- Fuel-driven recursion for the `MAX_BATCH_SIZE = 1000` chunking loop of
`updateVisibilityForNewCells` (each step consumes at least one element, so
`l.length` fuel always suffices). -/
def splitIntoChunksAux : ℕ → List Vec3 → List (List Vec3)
  | 0, _ => []
  | _, [] => []
  | fuel + 1, l => l.take 1000 :: splitIntoChunksAux fuel (l.drop 1000)

/-- The `MAX_BATCH_SIZE = 1000` chunking of the new-position list. -/
def splitIntoChunks (l : List Vec3) : List (List Vec3) :=
  splitIntoChunksAux l.length l

/-- `TruncatedOctahedraManager::updateVisibilityForNewCells`. -/
def updateVisibilityForNewCells (s : ManagerState) (newPositions : List Vec3) :
    ManagerState :=
  (splitIntoChunks newPositions).foldl processChunk s

/-- The `isSquareFace` classification inside the growth tick. -/
def isSquareFace (newPos currentPos : Vec3) : Bool :=
  let dx := |newPos.x - currentPos.x|
  let dy := |newPos.y - currentPos.y|
  let dz := |newPos.z - currentPos.z|
  decide ((dx > 0 ∧ dy < 1 / 10 ∧ dz < 1 / 10) ∨
    (dx < 1 / 10 ∧ dy > 0 ∧ dz < 1 / 10) ∨
    (dx < 1 / 10 ∧ dy < 1 / 10 ∧ dz > 0))

/-- Candidate-evaluation step of
`TruncatedOctahedraManager::trySpawningNewOctahedra` for one spawning cell:
pick one available neighbor (the uniform draw becomes the oracle value
reduced modulo the number of choices), record the face statistic, collect
the proposal. -/
def spawnStep (posDraw : ℕ → ℕ) (acc : ManagerState × List Vec3) (idx : ℕ) :
    ManagerState × List Vec3 :=
  let t := acc.1
  let currentPos := t.transforms.getPosition idx
  let availPair := getAvailableNeighborPositions t currentPos
  let available := availPair.1
  let t2 := availPair.2
  if available = [] then
    (t2, acc.2)
  else
    let newPos := available.getD (posDraw idx % available.length) ⟨0, 0, 0⟩
    let t3 :=
      if isSquareFace newPos currentPos then
        { t2 with squareFacePlacements := t2.squareFacePlacements + 1 }
      else
        { t2 with hexagonFacePlacements := t2.hexagonFacePlacements + 1 }
    (t3, acc.2 ++ [newPos])

/-- `TruncatedOctahedraManager::trySpawningNewOctahedra`.  `spawnDraw i` is
the uniform `[0,1)` draw deciding whether cell `i` spawns; `posDraw i`
drives its neighbor choice.  The parallel proposal loop is modelled in
index order; the final commit loop and the incremental visibility update
follow the source. -/
def trySpawningNewOctahedra (s : ManagerState) (deltaTime : ℚ)
    (spawnDraw : ℕ → ℚ) (posDraw : ℕ → ℕ) : ManagerState :=
  let totalSize := s.transforms.size
  let spawnIndices := (List.range totalSize).filter fun i =>
    decide (spawnDraw i < SPAWN_CHANCE * deltaTime)
  let evalResult := spawnIndices.foldl (spawnStep posDraw) (s, [])
  let newPositions := evalResult.2
  let s2 := newPositions.foldl addOctahedron evalResult.1
  if newPositions = [] then s2 else updateVisibilityForNewCells s2 newPositions

/-- `TruncatedOctahedraManager::applyPendingChanges`: early return on an
empty queue; otherwise move the pending positions out, commit them with
`addOctahedron` (the 5000-wide batching of the source performs the same
sequential adds), then run the incremental visibility update on them. -/
def applyPendingChanges (s : ManagerState) : ManagerState :=
  if s.pendingNewPositions = [] then
    s
  else
    let newPositionsToApply := s.pendingNewPositions
    let s1 := { s with pendingNewPositions := [] }
    let s2 := newPositionsToApply.foldl addOctahedron s1
    updateVisibilityForNewCells s2 newPositionsToApply

/-- Stage one batch of positions as the pending queue and drain it: the
path by which growth results are committed through the manager. -/
def commitBatch (s : ManagerState) (batch : List Vec3) : ManagerState :=
  applyPendingChanges { s with pendingNewPositions := batch }

/-- Commit a sequence of batches through the manager, running the
incremental visibility updater after each batch. -/
def commitBatches (s : ManagerState) (batches : List (List Vec3)) : ManagerState :=
  batches.foldl commitBatch s

end Manager

/-- The manager iteration paired with the dense grid (cell store, dense
grid, boundary). -/
structure DenseManagerState where
  transforms : TransformData
  grid : DenseGrid
  boundaryManager : BoundaryManager

namespace DenseManager

/-- A dense-manager state with no cells over a default-sized dense grid. -/
def initialState (bm : BoundaryManager) : DenseManagerState where
  transforms := TransformData.empty
  grid := DenseGrid.emptyGrid
  boundaryManager := bm

/-- `TruncatedOctahedraManager::addOctahedron` over the dense grid. -/
def addOctahedron (s : DenseManagerState) (pos : Vec3) : DenseManagerState :=
  if !DenseGrid.isOccupied s.grid pos && s.boundaryManager.isPointWithinBoundary pos then
    { s with
      transforms := s.transforms.add pos
      grid := DenseGrid.insert s.grid pos s.transforms.size }
  else
    s

end DenseManager

/-- The manager state holding exactly one seed cell at the origin with the
boundary disabled: the "single seed, unconstrained boundary" scenario. -/
def singleSeedState : ManagerState :=
  Manager.addOctahedron (Manager.initialState BoundaryManager.disabledManager) ⟨0, 0, 0⟩

/-- The from-scratch occupied-neighbor count of a position over a grid:
what `updateCellVisibility` stores as `neighborCount`. -/
def occCount (g : HashGrid) (pos : Vec3) : ℤ :=
  (HashGrid.getOccupiedNeighbors g pos).length

/-- Whether some stored cell of the manager sits exactly at `q`. -/
def storedAt (s : ManagerState) (q : Vec3) : Bool :=
  (List.range s.transforms.size).any fun i => decide (s.transforms.positions i = q)

/-- Exact alignment of a family of committed positions: any two of them
within `POSITION_EPSILON` of each other coincide, and any one of them
within `POSITION_EPSILON` of a neighbor slot of another sits exactly on
that slot.  This is the regime the epsilon-based spatial hash is built
for; drifted positions violate it. -/
def WellAligned (P : List Vec3) : Prop :=
  (∀ p ∈ P, ∀ q ∈ P, dist2 p q < HashGrid.POSITION_EPSILON ^ 2 → p = q) ∧
  (∀ p ∈ P, ∀ q ∈ P, ∀ d ∈ HashGrid.neighborOffsets,
    dist2 q (Vector3Add p d) < HashGrid.POSITION_EPSILON ^ 2 → q = Vector3Add p d)

/-- Store/grid consistency of the hash-grid manager: stored positions come
from `P` and are pairwise distinct, and every bucket holds exactly the
cells of the stored ids hashing to it, in id order. -/
def StoreGrid (P : List Vec3) (s : ManagerState) : Prop :=
  (∀ i, i < s.transforms.size → s.transforms.positions i ∈ P) ∧
  (∀ i j, i < s.transforms.size → j < s.transforms.size →
    s.transforms.positions i = s.transforms.positions j → i = j) ∧
  (∀ b, s.grid.spatialHash b =
    ((List.range s.transforms.size).filter
      (fun i => HashGrid.positionToHashIndex (s.transforms.positions i) = b)).map
      (fun i => ⟨i, s.transforms.positions i⟩))

/-- Every stored cell's `(neighborCount, visible)` pair agrees with a
from-scratch recomputation over the current grid. -/
def CountsCorrect (s : ManagerState) : Prop :=
  ∀ i, i < s.transforms.size →
    s.transforms.neighbor_counts i = occCount s.grid (s.transforms.positions i) ∧
    s.transforms.is_visible i =
      decide (occCount s.grid (s.transforms.positions i) < 14)

/-- The set of cell ids recomputed by `updateVisibilityForNewCells` over a
batch: the cells the batch positions resolve to, plus the occupied
neighbors of the batch positions. -/
def touchedBy (g : HashGrid) (B : List Vec3) (j : ℕ) : Prop :=
  (∃ p ∈ B, HashGrid.findCellIndex g p = some j) ∨
  (∃ p ∈ B, ∃ np ∈ HashGrid.getNeighborPositions p,
    HashGrid.isOccupied g np = true ∧ HashGrid.findCellIndex g np = some j)

/-- A parent position carrying accumulated floating-point drift (an exact
rational, as produced by repeated float neighbor-offset additions in the
running simulation). -/
def driftedParentPos : Vec3 :=
  ⟨3181500000007028697767 / 62500000000000000000, 30, 50⟩

/-- A hexagonal-neighbor child of `driftedParentPos`, drifted the same
way: it lies within `POSITION_EPSILON` of the parent's neighbor slot but
its quantized hash cell differs from the slot's, so neighbor scans of the
parent miss it. -/
def driftedChildPos : Vec3 :=
  ⟨6009500000021086093301 / 125000000000000000000,
    1025874999992971302233 / 31250000000000000000,
    1650874999992971302233 / 31250000000000000000⟩

/-- The manager run committing the drifted parent, then the drifted child,
as two batches through `applyPendingChanges`. -/
def driftedRunState : ManagerState :=
  Manager.commitBatches (Manager.initialState BoundaryManager.defaultManager)
    [[driftedParentPos], [driftedChildPos]]

/-! ## Basic arithmetic lemmas -/

theorem roundf_intCast (n : ℤ) : roundf (n : ℚ) = n := by
  unfold roundf
  split
  · rw [Int.floor_int_add]
    norm_num
  · rw [show ((n : ℚ) - 1 / 2) = -(1 / 2) + (n : ℚ) from by ring, Int.ceil_add_int]
    norm_num

theorem denseSquareDistance_ne_zero : DenseGrid.SQUARE_DISTANCE ≠ 0 := by
  norm_num [DenseGrid.SQUARE_DISTANCE]

/-! ## The dense coordinate mapper: round trip and snapping -/

theorem dense_ptc_ctp (x y z : ℤ) :
    DenseGrid.positionToCoordinates (DenseGrid.coordinatesToPosition x y z) = (x, y, z) := by
  have hS := denseSquareDistance_ne_zero
  have hy2 : ((y : ℚ) * DenseGrid.SQUARE_DISTANCE * (1 / 2)) / DenseGrid.SQUARE_DISTANCE * 2
      = (y : ℚ) := by
    field_simp
    ring
  have hx1 : ∀ q : ℚ, q * DenseGrid.SQUARE_DISTANCE / DenseGrid.SQUARE_DISTANCE = q := by
    intro q
    field_simp
  by_cases hpar : y % 2 = 0
  · simp only [DenseGrid.coordinatesToPosition, DenseGrid.positionToCoordinates, hpar,
      ne_eq, not_true_eq_false, if_false, ite_false, hy2, roundf_intCast, hx1]
  · simp only [DenseGrid.coordinatesToPosition, DenseGrid.positionToCoordinates, hpar,
      ne_eq, not_false_eq_true, if_true, ite_true, hy2, roundf_intCast]
    have hx2 : ∀ q : ℚ, (q * DenseGrid.SQUARE_DISTANCE + DenseGrid.SQUARE_DISTANCE * (1 / 2) -
        DenseGrid.SQUARE_DISTANCE * (1 / 2)) / DenseGrid.SQUARE_DISTANCE = q := by
      intro q
      field_simp
    simp only [hx2, roundf_intCast]

theorem dense_snap_idempotent (p : Vec3) :
    DenseGrid.snapToGridPosition (DenseGrid.snapToGridPosition p) =
      DenseGrid.snapToGridPosition p := by
  have hh : DenseGrid.SQUARE_DISTANCE * (1 / 2) ≠ 0 := by
    norm_num [DenseGrid.SQUARE_DISTANCE]
  have key : ∀ q : ℚ,
      (roundf ((roundf (q / (DenseGrid.SQUARE_DISTANCE * (1 / 2))) : ℚ) *
        (DenseGrid.SQUARE_DISTANCE * (1 / 2)) / (DenseGrid.SQUARE_DISTANCE * (1 / 2))) : ℚ) *
        (DenseGrid.SQUARE_DISTANCE * (1 / 2)) =
      (roundf (q / (DenseGrid.SQUARE_DISTANCE * (1 / 2))) : ℚ) *
        (DenseGrid.SQUARE_DISTANCE * (1 / 2)) := by
    intro q
    rw [mul_div_assoc, div_self hh, mul_one, roundf_intCast]
  simp only [DenseGrid.snapToGridPosition, key]

/-- C4: the dense coordinate mapper round-trips every lattice coordinate
(`positionToCoordinates ∘ coordinatesToPosition = id`), hence every
lattice-aligned world position maps to a coordinate and back to itself
exactly, and `snapToGridPosition` is a projection. -/
theorem C4_roundtrip_and_snap_projection :
    (∀ x y z : ℤ,
      DenseGrid.positionToCoordinates (DenseGrid.coordinatesToPosition x y z) = (x, y, z)) ∧
    (∀ x y z : ℤ,
      (fun c : ℤ × ℤ × ℤ => DenseGrid.coordinatesToPosition c.1 c.2.1 c.2.2)
        (DenseGrid.positionToCoordinates (DenseGrid.coordinatesToPosition x y z)) =
        DenseGrid.coordinatesToPosition x y z) ∧
    (∀ p : Vec3,
      DenseGrid.snapToGridPosition (DenseGrid.snapToGridPosition p) =
        DenseGrid.snapToGridPosition p) := by
  refine ⟨dense_ptc_ctp, ?_, dense_snap_idempotent⟩
  intro x y z
  rw [dense_ptc_ctp]

/-! ## C9: empty pending queue drain is a no-op -/

/-- C9: `applyPendingChanges` on an empty pending queue returns the state
unchanged: neither the cell store nor the grid is mutated. -/
theorem C9_empty_drain_noop (s : ManagerState) (h : s.pendingNewPositions = []) :
    Manager.applyPendingChanges s = s := by
  simp [Manager.applyPendingChanges, h]

theorem C9_empty_drain_noop_witness :
    (Manager.initialState BoundaryManager.defaultManager).pendingNewPositions = [] ∧
    Manager.applyPendingChanges (Manager.initialState BoundaryManager.defaultManager) =
      Manager.initialState BoundaryManager.defaultManager :=
  ⟨rfl, C9_empty_drain_noop (Manager.initialState BoundaryManager.defaultManager) rfl⟩

/-! ## C10: disabled or absent boundary accepts every point -/

/-- C10: with the boundary disabled or absent, `isPointWithinBoundary` is
constantly true, the manager's boundary test accepts every position, and
`addOctahedron` at any unoccupied position appends a cell. -/
theorem C10_disabled_boundary_accepts_all (bm : BoundaryManager) (p : Vec3)
    (h : bm.boundaryEnabled = false ∨ bm.boundary = none) :
    bm.isPointWithinBoundary p = true ∧
    (∀ s : ManagerState, s.boundaryManager = bm →
      Manager.isWithinBoundary s p = true ∧
      (HashGrid.isOccupied s.grid p = false →
        (Manager.addOctahedron s p).transforms.size = s.transforms.size + 1)) := by
  have hin : bm.isPointWithinBoundary p = true := by
    rcases h with h | h
    · simp [BoundaryManager.isPointWithinBoundary, h]
    · simp [BoundaryManager.isPointWithinBoundary, h]
  refine ⟨hin, fun s hs => ?_⟩
  have hw : Manager.isWithinBoundary s p = true := by
    simp [Manager.isWithinBoundary, hs, hin]
  refine ⟨hw, fun hocc => ?_⟩
  simp [Manager.addOctahedron, hocc, hw, TransformData.add]

section ComputeC10

attribute [local semireducible] Rat.add Rat.mul Rat.inv Rat.sub

theorem C10_disabled_boundary_accepts_all_witness :
    (BoundaryManager.disabledManager.boundaryEnabled = false ∨
      BoundaryManager.disabledManager.boundary = none) ∧
    BoundaryManager.disabledManager.isPointWithinBoundary ⟨1, 2, 3⟩ = true ∧
    (Manager.addOctahedron (Manager.initialState BoundaryManager.disabledManager)
      ⟨1, 2, 3⟩).transforms.size =
      (Manager.initialState BoundaryManager.disabledManager).transforms.size + 1 := by
  refine ⟨Or.inl rfl, ?_, ?_⟩
  · exact (C10_disabled_boundary_accepts_all BoundaryManager.disabledManager ⟨1, 2, 3⟩
      (Or.inl rfl)).1
  · exact ((C10_disabled_boundary_accepts_all BoundaryManager.disabledManager ⟨1, 2, 3⟩
      (Or.inl rfl)).2 (Manager.initialState BoundaryManager.disabledManager) rfl).2
      (by decide)

end ComputeC10

/-! ## C2: duplicate insert -/

section ComputeC2

attribute [local semireducible] Rat.add Rat.mul Rat.inv Rat.sub

/-- C2 counterexample: the dense `OctahedronGrid::insert` performs no
occupancy check, so inserting id 1 at a slot already holding id 0
overwrites the slot — the slot no longer maps to the first writer. -/
theorem C2_counterexample_dense_insert_overwrites :
    DenseGrid.findCellIndex
        (DenseGrid.insert (DenseGrid.insert DenseGrid.emptyGrid ⟨0, 0, 0⟩ 0) ⟨0, 0, 0⟩ 1)
        ⟨0, 0, 0⟩ = some 1 ∧
    (some 1 : Option ℕ) ≠ some 0 := by
  constructor
  · decide
  · decide

/-- C2 amended: at the manager level a duplicate is a no-op —
`addOctahedron` checks `isOccupied` first and leaves the whole state
(store, grid, sizes) unchanged; the raw grid `insert` itself has no such
guard. -/
theorem C2_amended_manager_duplicate_noop (s : ManagerState) (pos : Vec3)
    (h : HashGrid.isOccupied s.grid pos = true) :
    Manager.addOctahedron s pos = s := by
  simp [Manager.addOctahedron, h]

theorem C2_amended_manager_duplicate_noop_witness :
    HashGrid.isOccupied
        (Manager.addOctahedron (Manager.initialState BoundaryManager.disabledManager)
          ⟨0, 0, 0⟩).grid ⟨0, 0, 0⟩ = true ∧
    Manager.addOctahedron
        (Manager.addOctahedron (Manager.initialState BoundaryManager.disabledManager) ⟨0, 0, 0⟩)
        ⟨0, 0, 0⟩ =
      Manager.addOctahedron (Manager.initialState BoundaryManager.disabledManager) ⟨0, 0, 0⟩ :=
  ⟨by decide, C2_amended_manager_duplicate_noop _ ⟨0, 0, 0⟩ (by decide)⟩

end ComputeC2

/-! ## C8: reverse lookup, dense grid -/

theorem dense_insert_of_none (g : DenseGrid) (p : Vec3) (i : ℕ)
    (hh : DenseGrid.positionToIndex g (DenseGrid.snapToGridPosition p) = none) :
    DenseGrid.insert g p i = g := by
  unfold DenseGrid.insert
  simp only []
  rw [hh]

theorem dense_insert_of_some (g : DenseGrid) (p : Vec3) (i idx : ℕ)
    (hh : DenseGrid.positionToIndex g (DenseGrid.snapToGridPosition p) = some idx) :
    DenseGrid.insert g p i =
      { g with
        grid := fun k =>
          if k = idx then (some i, DenseGrid.snapToGridPosition p) else g.grid k
        indexToPositionMap := fun k =>
          if k = i then some (DenseGrid.snapToGridPosition p)
          else g.indexToPositionMap k } := by
  unfold DenseGrid.insert
  simp only []
  rw [hh]

theorem dense_insert_dims (g : DenseGrid) (p : Vec3) (i : ℕ) :
    (DenseGrid.insert g p i).gridLength = g.gridLength ∧
    (DenseGrid.insert g p i).gridWidth = g.gridWidth ∧
    (DenseGrid.insert g p i).gridHeight = g.gridHeight := by
  cases hh : DenseGrid.positionToIndex g (DenseGrid.snapToGridPosition p) with
  | none => rw [dense_insert_of_none g p i hh]; exact ⟨rfl, rfl, rfl⟩
  | some idx => rw [dense_insert_of_some g p i idx hh]; exact ⟨rfl, rfl, rfl⟩

theorem dense_positionToIndex_dims_congr (g h : DenseGrid)
    (h1 : h.gridLength = g.gridLength) (h2 : h.gridWidth = g.gridWidth)
    (h3 : h.gridHeight = g.gridHeight) (q : Vec3) :
    DenseGrid.positionToIndex h q = DenseGrid.positionToIndex g q := by
  unfold DenseGrid.positionToIndex DenseGrid.isValidCoordinate
  rw [h1, h2, h3]

theorem dense_insert_positionToIndex (g : DenseGrid) (p : Vec3) (i : ℕ) (q : Vec3) :
    DenseGrid.positionToIndex (DenseGrid.insert g p i) q = DenseGrid.positionToIndex g q :=
  dense_positionToIndex_dims_congr g _ (dense_insert_dims g p i).1
    (dense_insert_dims g p i).2.1 (dense_insert_dims g p i).2.2 q

theorem dense_insert_map_ne (g : DenseGrid) (p : Vec3) (i j : ℕ) (hji : j ≠ i) :
    (DenseGrid.insert g p i).indexToPositionMap j = g.indexToPositionMap j := by
  cases hh : DenseGrid.positionToIndex g (DenseGrid.snapToGridPosition p) with
  | none => rw [dense_insert_of_none g p i hh]
  | some idx => rw [dense_insert_of_some g p i idx hh]; simp [hji]

theorem dense_insert_map_self (g : DenseGrid) (p : Vec3) (i : ℕ)
    (h : (DenseGrid.positionToIndex g (DenseGrid.snapToGridPosition p)).isSome = true) :
    (DenseGrid.insert g p i).indexToPositionMap i =
      some (DenseGrid.snapToGridPosition p) := by
  cases hh : DenseGrid.positionToIndex g (DenseGrid.snapToGridPosition p) with
  | none => rw [hh] at h; simp at h
  | some idx => rw [dense_insert_of_some g p i idx hh]; simp

theorem dense_applyInserts_dims (ops : List (Vec3 × ℕ)) : ∀ g : DenseGrid,
    (DenseGrid.applyInserts g ops).gridLength = g.gridLength ∧
    (DenseGrid.applyInserts g ops).gridWidth = g.gridWidth ∧
    (DenseGrid.applyInserts g ops).gridHeight = g.gridHeight := by
  induction ops with
  | nil => intro g; exact ⟨rfl, rfl, rfl⟩
  | cons op rest ih =>
    intro g
    have hstep := dense_insert_dims g op.1 op.2
    have := ih (DenseGrid.insert g op.1 op.2)
    unfold DenseGrid.applyInserts at *
    simp only [List.foldl_cons]
    exact ⟨this.1.trans hstep.1, this.2.1.trans hstep.2.1, this.2.2.trans hstep.2.2⟩

theorem dense_applyInserts_map_not_mem (ops : List (Vec3 × ℕ)) : ∀ (g : DenseGrid) (j : ℕ),
    j ∉ ops.map Prod.snd →
    (DenseGrid.applyInserts g ops).indexToPositionMap j = g.indexToPositionMap j := by
  induction ops with
  | nil => intro g j _; rfl
  | cons op rest ih =>
    intro g j hj
    simp only [List.map_cons, List.mem_cons] at hj
    push_neg at hj
    unfold DenseGrid.applyInserts at *
    simp only [List.foldl_cons]
    rw [ih (DenseGrid.insert g op.1 op.2) j hj.2, dense_insert_map_ne g op.1 op.2 j hj.1]

/-- C8: ids never inserted resolve to the `(0,0,0)` sentinel through
`getPositionForIndex`; an inserted id (with an in-grid position, not
re-inserted later) resolves to its stored snapped world position. -/
theorem C8_unknown_id_sentinel_and_reverse_lookup :
    (∀ (ops : List (Vec3 × ℕ)) (cid : ℕ), cid ∉ ops.map Prod.snd →
      DenseGrid.getPositionForIndex (DenseGrid.applyInserts DenseGrid.emptyGrid ops) cid =
        ⟨0, 0, 0⟩) ∧
    (∀ (ops1 : List (Vec3 × ℕ)) (pos : Vec3) (cid : ℕ) (ops2 : List (Vec3 × ℕ)),
      (DenseGrid.positionToIndex DenseGrid.emptyGrid
        (DenseGrid.snapToGridPosition pos)).isSome = true →
      cid ∉ ops2.map Prod.snd →
      DenseGrid.getPositionForIndex
          (DenseGrid.applyInserts DenseGrid.emptyGrid (ops1 ++ (pos, cid) :: ops2)) cid =
        DenseGrid.snapToGridPosition pos) := by
  constructor
  · intro ops cid hcid
    rw [DenseGrid.getPositionForIndex, dense_applyInserts_map_not_mem ops _ cid hcid]
    rfl
  · intro ops1 pos cid ops2 hvalid hcid
    have hsplit : DenseGrid.applyInserts DenseGrid.emptyGrid (ops1 ++ (pos, cid) :: ops2) =
        DenseGrid.applyInserts
          (DenseGrid.insert (DenseGrid.applyInserts DenseGrid.emptyGrid ops1) pos cid) ops2 := by
      unfold DenseGrid.applyInserts
      rw [List.foldl_append, List.foldl_cons]
    rw [DenseGrid.getPositionForIndex, hsplit,
      dense_applyInserts_map_not_mem ops2 _ cid hcid]
    have hdims := dense_applyInserts_dims ops1 DenseGrid.emptyGrid
    have hvalid2 : (DenseGrid.positionToIndex (DenseGrid.applyInserts DenseGrid.emptyGrid ops1)
        (DenseGrid.snapToGridPosition pos)).isSome = true := by
      rw [dense_positionToIndex_dims_congr DenseGrid.emptyGrid _ hdims.1 hdims.2.1 hdims.2.2]
      exact hvalid
    rw [dense_insert_map_self _ pos cid hvalid2]
    rfl

section ComputeC8

attribute [local semireducible] Rat.add Rat.mul Rat.inv Rat.sub

theorem C8_unknown_id_sentinel_and_reverse_lookup_witness :
    ((5 : ℕ) ∉ ([((⟨0, 0, 0⟩ : Vec3), (0 : ℕ))].map Prod.snd) ∧
      DenseGrid.getPositionForIndex
        (DenseGrid.applyInserts DenseGrid.emptyGrid [(⟨0, 0, 0⟩, 0)]) 5 = ⟨0, 0, 0⟩) ∧
    ((DenseGrid.positionToIndex DenseGrid.emptyGrid
        (DenseGrid.snapToGridPosition (DenseGrid.coordinatesToPosition 2 2 2))).isSome = true ∧
      DenseGrid.getPositionForIndex
          (DenseGrid.applyInserts DenseGrid.emptyGrid
            ([] ++ (DenseGrid.coordinatesToPosition 2 2 2, 0) :: [])) 0 =
        DenseGrid.snapToGridPosition (DenseGrid.coordinatesToPosition 2 2 2)) :=
  ⟨⟨by decide, C8_unknown_id_sentinel_and_reverse_lookup.1 [(⟨0, 0, 0⟩, 0)] 5 (by decide)⟩,
   ⟨by decide, C8_unknown_id_sentinel_and_reverse_lookup.2 []
      (DenseGrid.coordinatesToPosition 2 2 2) 0 [] (by decide) (by decide)⟩⟩

end ComputeC8

/-! ## C5 and C6: neighbor enumeration -/

theorem hash_getNeighborPositions_eq_map (p : Vec3) :
    HashGrid.getNeighborPositions p = HashGrid.neighborOffsets.map (Vector3Add p) := by
  simp only [HashGrid.getNeighborPositions, HashGrid.neighborOffsets, List.map_append,
    List.map_map, List.map_cons, List.map_nil, Vector3Add]
  refine congrArg₂ _ ?_ ?_
  · simp only [List.cons.injEq, Vec3.mk.injEq, and_true]
    norm_num
    exact ⟨by ring, by ring, by ring⟩
  · rfl

section ComputeOffsets

attribute [local semireducible] Rat.add Rat.mul Rat.inv Rat.sub

theorem neg_mem_neighborOffsets :
    ∀ d ∈ HashGrid.neighborOffsets, Vector3Neg d ∈ HashGrid.neighborOffsets := by
  decide

end ComputeOffsets

theorem add_neg_cancel_vec (p d : Vec3) :
    Vector3Add (Vector3Add p d) (Vector3Neg d) = p := by
  obtain ⟨px, py, pz⟩ := p
  obtain ⟨dx, dy, dz⟩ := d
  simp only [Vector3Add, Vector3Neg, Vec3.mk.injEq]
  refine ⟨by ring, by ring, by ring⟩

/-- C5 amended: for the spatial-hash `getNeighborPositions`, the
14-neighbor relation is symmetric: if `q` is a neighbor position of `p`
then `p` is a neighbor position of `q`. -/
theorem C5_amended_hash_neighbor_symmetry (p q : Vec3)
    (h : q ∈ HashGrid.getNeighborPositions p) :
    p ∈ HashGrid.getNeighborPositions q := by
  rw [hash_getNeighborPositions_eq_map] at h
  rw [hash_getNeighborPositions_eq_map]
  obtain ⟨d, hd, rfl⟩ := List.mem_map.mp h
  exact List.mem_map.mpr ⟨Vector3Neg d, neg_mem_neighborOffsets d hd,
    add_neg_cancel_vec p d⟩

section ComputeC5

attribute [local semireducible] Rat.add Rat.mul Rat.inv Rat.sub

theorem C5_amended_hash_neighbor_symmetry_witness :
    ((⟨HashGrid.SQUARE_DISTANCE, 0, 0⟩ : Vec3) ∈
      HashGrid.getNeighborPositions ⟨0, 0, 0⟩) ∧
    ((⟨0, 0, 0⟩ : Vec3) ∈
      HashGrid.getNeighborPositions ⟨HashGrid.SQUARE_DISTANCE, 0, 0⟩) :=
  ⟨by decide, C5_amended_hash_neighbor_symmetry ⟨0, 0, 0⟩ ⟨HashGrid.SQUARE_DISTANCE, 0, 0⟩
    (by decide)⟩

/-- C5 counterexample: the dense/coordinate `getNeighborPositions` is not
symmetric — the coordinate-space hex offsets are not closed under
negation.  The cell at lattice coordinate `(0,1,0)` is listed as a
neighbor of the cell at `(1,0,1)`, but not conversely. -/
theorem C5_counterexample_dense_asymmetry :
    (DenseGrid.coordinatesToPosition 0 1 0 ∈
      DenseGrid.getNeighborPositions DenseGrid.emptyGrid
        (DenseGrid.coordinatesToPosition 1 0 1) false) ∧
    ¬(DenseGrid.coordinatesToPosition 1 0 1 ∈
      DenseGrid.getNeighborPositions DenseGrid.emptyGrid
        (DenseGrid.coordinatesToPosition 0 1 0) false) := by
  constructor
  · decide
  · decide

end ComputeC5

theorem hex_dist_eq (p d : Vec3) (hd : d ∈ HashGrid.hexDirs) :
    dist2 (Vector3Add p (Vector3Scale d HashGrid.HEXAGON_DISTANCE)) p =
      3 * (HashGrid.hexNormConst * HashGrid.HEXAGON_DISTANCE) ^ 2 := by
  fin_cases hd <;>
    · simp only [dist2, Vector3Add, Vector3Scale]
      ring

theorem hex_dist_error_bound :
    |3 * (HashGrid.hexNormConst * HashGrid.HEXAGON_DISTANCE) ^ 2 -
      HashGrid.HEXAGON_DISTANCE ^ 2| < 1 / 1000000 := by
  rw [abs_lt]
  constructor <;>
    norm_num [HashGrid.hexNormConst, HashGrid.HEXAGON_DISTANCE, HashGrid.SQUARE_DISTANCE]

/-- C6 amended, for the static spatial-hash `getNeighborPositions`: the
result always has exactly 14 entries in a fixed order — first the 6
axis-aligned square-face neighbors, each at exactly `SQUARE_DISTANCE`, then
the 8 hex-face neighbors `pos + HEXAGON_DISTANCE * (±s, ±s, ±s)` over the 8
distinct sign combinations of the normalisation constant `s ≈ 1/√3`, each
at `HEXAGON_DISTANCE` up to the floating-point error of `s` (squared
distance within `10⁻⁶` of `HEXAGON_DISTANCE²`). -/
theorem C6_amended_hash_neighbor_enumeration (p : Vec3) :
    (HashGrid.getNeighborPositions p).length = 14 ∧
    (∀ i, i < 6 →
      dist2 ((HashGrid.getNeighborPositions p).getD i ⟨0, 0, 0⟩) p =
        HashGrid.SQUARE_DISTANCE ^ 2) ∧
    (HashGrid.getNeighborPositions p).drop 6 =
      HashGrid.hexDirs.map (fun d => Vector3Add p (Vector3Scale d HashGrid.HEXAGON_DISTANCE)) ∧
    (∀ d ∈ HashGrid.hexDirs,
      |dist2 (Vector3Add p (Vector3Scale d HashGrid.HEXAGON_DISTANCE)) p -
        HashGrid.HEXAGON_DISTANCE ^ 2| < 1 / 1000000) ∧
    HashGrid.hexDirs.length = 8 ∧ HashGrid.hexDirs.Nodup ∧
    (∀ d ∈ HashGrid.hexDirs, ∃ e1 e2 e3 : ℚ,
      (e1 = 1 ∨ e1 = -1) ∧ (e2 = 1 ∨ e2 = -1) ∧ (e3 = 1 ∨ e3 = -1) ∧
      d = ⟨e1 * HashGrid.hexNormConst, e2 * HashGrid.hexNormConst,
           e3 * HashGrid.hexNormConst⟩) := by
  refine ⟨?_, ?_, ?_, ?_, ?_, ?_, ?_⟩
  · simp [HashGrid.getNeighborPositions, HashGrid.hexDirs]
  · intro i hi
    interval_cases i <;>
      · simp only [HashGrid.getNeighborPositions, List.cons_append, List.nil_append,
          List.getD_cons_zero, List.getD_cons_succ, dist2]
        ring
  · simp [HashGrid.getNeighborPositions, HashGrid.hexDirs]
  · intro d hd
    rw [hex_dist_eq p d hd]
    exact hex_dist_error_bound
  · rfl
  · refine List.nodup_iff_injective_get.mpr ?_
    intro a b hab
    fin_cases a <;> fin_cases b <;> first
      | rfl
      | (exfalso
         revert hab
         norm_num [HashGrid.hexDirs, HashGrid.hexNormConst, Vec3.mk.injEq])
  · intro d hd
    fin_cases hd
    · exact ⟨1, 1, 1, Or.inl rfl, Or.inl rfl, Or.inl rfl, by norm_num⟩
    · exact ⟨-1, 1, 1, Or.inr rfl, Or.inl rfl, Or.inl rfl, by norm_num⟩
    · exact ⟨1, -1, 1, Or.inl rfl, Or.inr rfl, Or.inl rfl, by norm_num⟩
    · exact ⟨1, 1, -1, Or.inl rfl, Or.inl rfl, Or.inr rfl, by norm_num⟩
    · exact ⟨-1, -1, 1, Or.inr rfl, Or.inr rfl, Or.inl rfl, by norm_num⟩
    · exact ⟨-1, 1, -1, Or.inr rfl, Or.inl rfl, Or.inr rfl, by norm_num⟩
    · exact ⟨1, -1, -1, Or.inl rfl, Or.inr rfl, Or.inr rfl, by norm_num⟩
    · exact ⟨-1, -1, -1, Or.inr rfl, Or.inr rfl, Or.inr rfl, by norm_num⟩

section ComputeC6

attribute [local semireducible] Rat.add Rat.mul Rat.inv Rat.sub

theorem C6_amended_hash_neighbor_enumeration_witness :
    (HashGrid.getNeighborPositions ⟨0, 0, 0⟩).length = 14 ∧
    ((0 : ℕ) < 6 ∧
      dist2 ((HashGrid.getNeighborPositions ⟨0, 0, 0⟩).getD 0 ⟨0, 0, 0⟩) ⟨0, 0, 0⟩ =
        HashGrid.SQUARE_DISTANCE ^ 2) ∧
    ((⟨HashGrid.hexNormConst, HashGrid.hexNormConst, HashGrid.hexNormConst⟩ : Vec3) ∈
        HashGrid.hexDirs ∧
      |dist2 (Vector3Add ⟨0, 0, 0⟩
          (Vector3Scale ⟨HashGrid.hexNormConst, HashGrid.hexNormConst, HashGrid.hexNormConst⟩
            HashGrid.HEXAGON_DISTANCE)) ⟨0, 0, 0⟩ -
        HashGrid.HEXAGON_DISTANCE ^ 2| < 1 / 1000000) :=
  ⟨(C6_amended_hash_neighbor_enumeration ⟨0, 0, 0⟩).1,
   ⟨by decide, (C6_amended_hash_neighbor_enumeration ⟨0, 0, 0⟩).2.1 0 (by decide)⟩,
   ⟨by decide, (C6_amended_hash_neighbor_enumeration ⟨0, 0, 0⟩).2.2.2.1
      ⟨HashGrid.hexNormConst, HashGrid.hexNormConst, HashGrid.hexNormConst⟩ (by decide)⟩⟩

/-- C6 counterexample, dense/coordinate `getNeighborPositions`: at the
lattice position of coordinate `(2,2,2)` the list has 14 entries, but its
5th entry (an alleged axis-aligned square-face neighbor, the `y - 1`
coordinate step) is not at `SQUARE_DISTANCE`, and the list repeats one
position (entries 4 and 12 coincide), so the 14 entries do not enumerate
14 distinct neighbor slots. -/
theorem C6_counterexample_dense_enumeration :
    (DenseGrid.getNeighborPositions DenseGrid.emptyGrid
        (DenseGrid.coordinatesToPosition 2 2 2) false).length = 14 ∧
    dist2 ((DenseGrid.getNeighborPositions DenseGrid.emptyGrid
        (DenseGrid.coordinatesToPosition 2 2 2) false).getD 4 ⟨0, 0, 0⟩)
      (DenseGrid.coordinatesToPosition 2 2 2) ≠ DenseGrid.SQUARE_DISTANCE ^ 2 ∧
    (DenseGrid.getNeighborPositions DenseGrid.emptyGrid
        (DenseGrid.coordinatesToPosition 2 2 2) false).getD 4 ⟨0, 0, 0⟩ =
      (DenseGrid.getNeighborPositions DenseGrid.emptyGrid
        (DenseGrid.coordinatesToPosition 2 2 2) false).getD 12 ⟨0, 0, 0⟩ := by
  refine ⟨by decide, by decide, by decide⟩

end ComputeC6

/-! ## C3: one growth tick from a single seed -/

section ComputeC3

attribute [local semireducible] Rat.add Rat.mul Rat.inv Rat.sub

/-- C3 counterexample: one growth tick from a single seed with per-cell
spawn chance `SPAWN_CHANCE * deltaTime = 1` produces exactly one new cell,
not 14: each spawning cell proposes a single randomly chosen neighbor per
tick.  With the draw oracles fixed, afterwards `size() = 2` (not 15) and
the seed's `neighborCount = 1` (not 14) with `visible = true` (not
false). -/
theorem C3_counterexample_single_tick :
    (Manager.trySpawningNewOctahedra singleSeedState 10 (fun _ => 0)
      (fun _ => 0)).transforms.size = 2 ∧
    (2 : ℕ) ≠ 15 ∧
    (Manager.trySpawningNewOctahedra singleSeedState 10 (fun _ => 0)
      (fun _ => 0)).transforms.neighbor_counts 0 = 1 ∧
    (1 : ℤ) ≠ 14 ∧
    (Manager.trySpawningNewOctahedra singleSeedState 10 (fun _ => 0)
      (fun _ => 0)).transforms.is_visible 0 = true := by
  refine ⟨by decide, by decide, by decide, by decide, by decide⟩

set_option maxHeartbeats 4000000 in
/-- C3 amended: a single growth tick with spawn chance 1 from one seed at
the origin produces exactly one new cell, whichever of the 14 neighbor
slots the uniform draw selects: afterwards `size() = 2`, the new cell sits
on one of the seed's 14 neighbor positions, and both cells have
`neighborCount = 1`, `visible = true`. -/
theorem C3_amended_single_tick_one_cell (j : ℕ) (hj : j < 14) :
    (Manager.trySpawningNewOctahedra singleSeedState 10 (fun _ => 0)
      (fun _ => j)).transforms.size = 2 ∧
    (Manager.trySpawningNewOctahedra singleSeedState 10 (fun _ => 0)
      (fun _ => j)).transforms.positions 1 ∈
      HashGrid.getNeighborPositions ⟨0, 0, 0⟩ ∧
    (Manager.trySpawningNewOctahedra singleSeedState 10 (fun _ => 0)
      (fun _ => j)).transforms.neighbor_counts 0 = 1 ∧
    (Manager.trySpawningNewOctahedra singleSeedState 10 (fun _ => 0)
      (fun _ => j)).transforms.is_visible 0 = true ∧
    (Manager.trySpawningNewOctahedra singleSeedState 10 (fun _ => 0)
      (fun _ => j)).transforms.neighbor_counts 1 = 1 ∧
    (Manager.trySpawningNewOctahedra singleSeedState 10 (fun _ => 0)
      (fun _ => j)).transforms.is_visible 1 = true := by
  interval_cases j <;> exact ⟨by decide, by decide, by decide, by decide, by decide, by decide⟩

theorem C3_amended_single_tick_one_cell_witness :
    (3 : ℕ) < 14 ∧
    (Manager.trySpawningNewOctahedra singleSeedState 10 (fun _ => 0)
      (fun _ => 3)).transforms.size = 2 :=
  ⟨by decide, (C3_amended_single_tick_one_cell 3 (by decide)).1⟩

end ComputeC3

/-! ## C7: id/slot bijection of the dense-grid manager -/

theorem denseManager_addOct_of_false (s : DenseManagerState) (pos : Vec3)
    (h : (!DenseGrid.isOccupied s.grid pos &&
      s.boundaryManager.isPointWithinBoundary pos) = false) :
    DenseManager.addOctahedron s pos = s := by
  unfold DenseManager.addOctahedron
  rw [h]
  simp

theorem denseManager_addOct_of_true (s : DenseManagerState) (pos : Vec3)
    (h : (!DenseGrid.isOccupied s.grid pos &&
      s.boundaryManager.isPointWithinBoundary pos) = true) :
    DenseManager.addOctahedron s pos =
      { s with
        transforms := s.transforms.add pos
        grid := DenseGrid.insert s.grid pos s.transforms.size } := by
  unfold DenseManager.addOctahedron
  rw [h]
  simp

theorem denseManager_addOct_positionToIndex (s : DenseManagerState) (pos q : Vec3) :
    DenseGrid.positionToIndex (DenseManager.addOctahedron s pos).grid q =
      DenseGrid.positionToIndex s.grid q := by
  cases h : (!DenseGrid.isOccupied s.grid pos &&
      s.boundaryManager.isPointWithinBoundary pos) with
  | false => rw [denseManager_addOct_of_false s pos h]
  | true => rw [denseManager_addOct_of_true s pos h]; exact dense_insert_positionToIndex _ _ _ _

theorem denseManager_fold_invariant (ops : List Vec3) :
    ∀ s : DenseManagerState,
      (∀ p ∈ ops,
        (DenseGrid.positionToIndex s.grid (DenseGrid.snapToGridPosition p)).isSome = true) →
      (∀ i, i < s.transforms.size → ∃ p idx,
        s.grid.indexToPositionMap i = some p ∧
        DenseGrid.snapToGridPosition p = p ∧
        DenseGrid.positionToIndex s.grid p = some idx ∧
        s.grid.grid idx = (some i, p)) →
      ∀ i, i < (ops.foldl DenseManager.addOctahedron s).transforms.size → ∃ p idx,
        (ops.foldl DenseManager.addOctahedron s).grid.indexToPositionMap i = some p ∧
        DenseGrid.snapToGridPosition p = p ∧
        DenseGrid.positionToIndex (ops.foldl DenseManager.addOctahedron s).grid p = some idx ∧
        (ops.foldl DenseManager.addOctahedron s).grid.grid idx = (some i, p) := by
  induction ops with
  | nil => intro s _ hinv i hi; exact hinv i hi
  | cons op rest ih =>
    intro s hvalid hinv
    simp only [List.foldl_cons]
    refine ih (DenseManager.addOctahedron s op) ?_ ?_
    · intro p hp
      rw [denseManager_addOct_positionToIndex]
      exact hvalid p (List.mem_cons_of_mem op hp)
    · cases hguard : (!DenseGrid.isOccupied s.grid op &&
          s.boundaryManager.isPointWithinBoundary op) with
      | false =>
        rw [denseManager_addOct_of_false s op hguard]
        exact hinv
      | true =>
        rw [denseManager_addOct_of_true s op hguard]
        have hval0 : (DenseGrid.positionToIndex s.grid
            (DenseGrid.snapToGridPosition op)).isSome = true :=
          hvalid op (List.mem_cons_self op rest)
        obtain ⟨idx0, hidx0⟩ : ∃ idx0,
            DenseGrid.positionToIndex s.grid (DenseGrid.snapToGridPosition op) = some idx0 :=
          Option.isSome_iff_exists.mp hval0
        have hnotocc : (s.grid.grid idx0).1.isSome = false := by
          by_contra hcon
          have hcon2 : (s.grid.grid idx0).1.isSome = true := by
            revert hcon
            cases (s.grid.grid idx0).1 <;> simp
          have hocc : DenseGrid.isOccupied s.grid op = true := by
            unfold DenseGrid.isOccupied
            rw [hidx0]
            exact hcon2
          rw [hocc] at hguard
          simp at hguard
        intro i hi
        simp only [TransformData.add] at hi
        rcases Nat.lt_succ_iff_lt_or_eq.mp hi with hlt | heq
        · obtain ⟨p, idx, hmap, hsnap, hpti, hslot⟩ := hinv i hlt
          refine ⟨p, idx, ?_, hsnap, ?_, ?_⟩
          · rw [dense_insert_map_ne s.grid op s.transforms.size i (Nat.ne_of_lt hlt)]
            exact hmap
          · rw [dense_insert_positionToIndex]
            exact hpti
          · have hne : idx ≠ idx0 := by
              intro hcontra
              rw [← hcontra, hslot] at hnotocc
              simp at hnotocc
            rw [dense_insert_of_some s.grid op s.transforms.size idx0 hidx0]
            simp only [hne, if_false, ite_false]
            exact hslot
        · subst heq
          refine ⟨DenseGrid.snapToGridPosition op, idx0, ?_, dense_snap_idempotent op, ?_, ?_⟩
          · exact dense_insert_map_self s.grid op s.transforms.size hval0
          · rw [dense_insert_positionToIndex]
            exact hidx0
          · rw [dense_insert_of_some s.grid op s.transforms.size idx0 hidx0]
            simp

/-- C7 amended: for every sequence of `addOctahedron` calls from the empty
dense-grid manager whose positions all snap into the sized grid, the
id-to-slot correspondence is a bijection: every stored id resolves through
`getPositionForIndex` and back through `findCellIndex` to itself, and
distinct ids occupy distinct stored positions.  (Without the in-grid
proviso the bijection breaks: the store grows but the grid silently drops
the cell.) -/
theorem C7_amended_id_slot_bijection (ops : List Vec3) (bm : BoundaryManager)
    (hvalid : ∀ p ∈ ops, (DenseGrid.positionToIndex DenseGrid.emptyGrid
      (DenseGrid.snapToGridPosition p)).isSome = true) :
    (∀ i, i < (ops.foldl DenseManager.addOctahedron
        (DenseManager.initialState bm)).transforms.size →
      DenseGrid.findCellIndex
        (ops.foldl DenseManager.addOctahedron (DenseManager.initialState bm)).grid
        (DenseGrid.getPositionForIndex
          (ops.foldl DenseManager.addOctahedron (DenseManager.initialState bm)).grid i) =
        some i) ∧
    (∀ i j, i < (ops.foldl DenseManager.addOctahedron
        (DenseManager.initialState bm)).transforms.size →
      j < (ops.foldl DenseManager.addOctahedron
        (DenseManager.initialState bm)).transforms.size →
      DenseGrid.getPositionForIndex
        (ops.foldl DenseManager.addOctahedron (DenseManager.initialState bm)).grid i =
      DenseGrid.getPositionForIndex
        (ops.foldl DenseManager.addOctahedron (DenseManager.initialState bm)).grid j →
      i = j) := by
  have hinv := denseManager_fold_invariant ops (DenseManager.initialState bm)
    (fun p hp => hvalid p hp) (fun i hi => absurd hi (by simp [DenseManager.initialState,
      TransformData.empty]))
  constructor
  · intro i hi
    obtain ⟨p, idx, hmap, hsnap, hpti, hslot⟩ := hinv i hi
    unfold DenseGrid.getPositionForIndex
    rw [hmap]
    unfold DenseGrid.findCellIndex
    simp only [Option.getD_some]
    rw [hsnap, hpti]
    exact congrArg Prod.fst hslot
  · intro i j hi hj hpe
    obtain ⟨p, idx, hmap, hsnap, hpti, hslot⟩ := hinv i hi
    obtain ⟨q, idy, hmap2, hsnap2, hpti2, hslot2⟩ := hinv j hj
    unfold DenseGrid.getPositionForIndex at hpe
    rw [hmap, hmap2] at hpe
    simp only [Option.getD_some] at hpe
    subst hpe
    rw [hpti] at hpti2
    have hxy : idx = idy := Option.some.inj hpti2
    subst hxy
    rw [hslot] at hslot2
    exact Option.some.inj (congrArg Prod.fst hslot2)

section ComputeC7

attribute [local semireducible] Rat.add Rat.mul Rat.inv Rat.sub

theorem C7_amended_id_slot_bijection_witness :
    (∀ p ∈ [DenseGrid.coordinatesToPosition 1 1 1],
      (DenseGrid.positionToIndex DenseGrid.emptyGrid
        (DenseGrid.snapToGridPosition p)).isSome = true) ∧
    DenseGrid.findCellIndex
      ([DenseGrid.coordinatesToPosition 1 1 1].foldl DenseManager.addOctahedron
        (DenseManager.initialState BoundaryManager.disabledManager)).grid
      (DenseGrid.getPositionForIndex
        ([DenseGrid.coordinatesToPosition 1 1 1].foldl DenseManager.addOctahedron
          (DenseManager.initialState BoundaryManager.disabledManager)).grid 0) = some 0 :=
  ⟨by decide,
   (C7_amended_id_slot_bijection [DenseGrid.coordinatesToPosition 1 1 1]
      BoundaryManager.disabledManager (by decide)).1 0 (by decide)⟩

/-- C7 counterexample: a single `addOctahedron` at a position outside the
sized dense grid (negative lattice coordinates) increments the store to
size 1 while the grid drops the insert, so id 0 resolves to the sentinel
and `findCellIndex` cannot recover it — the claimed bijection fails. -/
theorem C7_counterexample_out_of_grid :
    ([(⟨-DenseGrid.SQUARE_DISTANCE, 0, 0⟩ : Vec3)].foldl DenseManager.addOctahedron
      (DenseManager.initialState BoundaryManager.disabledManager)).transforms.size = 1 ∧
    DenseGrid.findCellIndex
      ([(⟨-DenseGrid.SQUARE_DISTANCE, 0, 0⟩ : Vec3)].foldl DenseManager.addOctahedron
        (DenseManager.initialState BoundaryManager.disabledManager)).grid
      (DenseGrid.getPositionForIndex
        ([(⟨-DenseGrid.SQUARE_DISTANCE, 0, 0⟩ : Vec3)].foldl DenseManager.addOctahedron
          (DenseManager.initialState BoundaryManager.disabledManager)).grid 0) = none := by
  refine ⟨by decide, by decide⟩

end ComputeC7

/-! ## C1: incremental versus full-rescan visibility -/

attribute [irreducible] HashGrid.positionToHashIndex

theorem uCV_grid (s : ManagerState) (idx : ℕ) :
    (Manager.updateCellVisibility s idx).grid = s.grid := rfl

theorem uCV_size (s : ManagerState) (idx : ℕ) :
    (Manager.updateCellVisibility s idx).transforms.size = s.transforms.size := rfl

theorem uCV_positions (s : ManagerState) (idx : ℕ) :
    (Manager.updateCellVisibility s idx).transforms.positions =
      s.transforms.positions := rfl

theorem uCV_pending (s : ManagerState) (idx : ℕ) :
    (Manager.updateCellVisibility s idx).pendingNewPositions =
      s.pendingNewPositions := rfl

theorem uCV_boundary (s : ManagerState) (idx : ℕ) :
    (Manager.updateCellVisibility s idx).boundaryManager = s.boundaryManager := rfl

theorem uCV_counts (s : ManagerState) (idx j : ℕ) :
    (Manager.updateCellVisibility s idx).transforms.neighbor_counts j =
      if j = idx then occCount s.grid (s.transforms.positions idx)
      else s.transforms.neighbor_counts j := rfl

theorem uCV_vis (s : ManagerState) (idx j : ℕ) :
    (Manager.updateCellVisibility s idx).transforms.is_visible j =
      if j = idx then decide (occCount s.grid (s.transforms.positions idx) < 14)
      else s.transforms.is_visible j := rfl

theorem foldl_uCV_spec (L : List ℕ) : ∀ s : ManagerState,
    (L.foldl Manager.updateCellVisibility s).grid = s.grid ∧
    (L.foldl Manager.updateCellVisibility s).transforms.size = s.transforms.size ∧
    (L.foldl Manager.updateCellVisibility s).transforms.positions =
      s.transforms.positions ∧
    (L.foldl Manager.updateCellVisibility s).pendingNewPositions =
      s.pendingNewPositions ∧
    (L.foldl Manager.updateCellVisibility s).boundaryManager = s.boundaryManager ∧
    ∀ j,
      (j ∈ L →
        (L.foldl Manager.updateCellVisibility s).transforms.neighbor_counts j =
          occCount s.grid (s.transforms.positions j) ∧
        (L.foldl Manager.updateCellVisibility s).transforms.is_visible j =
          decide (occCount s.grid (s.transforms.positions j) < 14)) ∧
      (j ∉ L →
        (L.foldl Manager.updateCellVisibility s).transforms.neighbor_counts j =
          s.transforms.neighbor_counts j ∧
        (L.foldl Manager.updateCellVisibility s).transforms.is_visible j =
          s.transforms.is_visible j) := by
  induction L with
  | nil =>
    intro s
    refine ⟨rfl, rfl, rfl, rfl, rfl, fun j => ⟨fun hj => absurd hj (List.not_mem_nil j),
      fun _ => ⟨rfl, rfl⟩⟩⟩
  | cons a L ih =>
    intro s
    simp only [List.foldl_cons]
    obtain ⟨hg, hn, hp, hpend, hbm, hj⟩ := ih (Manager.updateCellVisibility s a)
    rw [uCV_grid, uCV_size, uCV_positions, uCV_pending, uCV_boundary] at *
    refine ⟨hg, hn, hp, hpend, hbm, fun j => ⟨fun hmem => ?_, fun hmem => ?_⟩⟩
    · rcases Decidable.em (j ∈ L) with hL | hL
      · exact (hj j).1 hL
      · have hja : j = a := by
          rcases List.mem_cons.mp hmem with h | h
          · exact h
          · exact absurd h hL
        obtain ⟨hc, hv⟩ := (hj j).2 hL
        rw [hc, hv, uCV_counts, uCV_vis, if_pos hja, if_pos hja, hja]
        exact ⟨rfl, rfl⟩
    · have hjL : j ∉ L := fun h => hmem (List.mem_cons_of_mem a h)
      have hja : j ≠ a := fun h => hmem (h ▸ List.mem_cons_self a L)
      obtain ⟨hc, hv⟩ := (hj j).2 hjL
      rw [hc, hv, uCV_counts, uCV_vis, if_neg hja, if_neg hja]
      exact ⟨rfl, rfl⟩

theorem refreshOwnCells_spec (chunk : List Vec3) : ∀ s : ManagerState,
    (Manager.refreshOwnCells s chunk).grid = s.grid ∧
    (Manager.refreshOwnCells s chunk).transforms.size = s.transforms.size ∧
    (Manager.refreshOwnCells s chunk).transforms.positions = s.transforms.positions ∧
    (Manager.refreshOwnCells s chunk).pendingNewPositions = s.pendingNewPositions ∧
    (Manager.refreshOwnCells s chunk).boundaryManager = s.boundaryManager ∧
    ∀ j,
      ((∃ p ∈ chunk, HashGrid.findCellIndex s.grid p = some j) →
        (Manager.refreshOwnCells s chunk).transforms.neighbor_counts j =
          occCount s.grid (s.transforms.positions j) ∧
        (Manager.refreshOwnCells s chunk).transforms.is_visible j =
          decide (occCount s.grid (s.transforms.positions j) < 14)) ∧
      (¬(∃ p ∈ chunk, HashGrid.findCellIndex s.grid p = some j) →
        (Manager.refreshOwnCells s chunk).transforms.neighbor_counts j =
          s.transforms.neighbor_counts j ∧
        (Manager.refreshOwnCells s chunk).transforms.is_visible j =
          s.transforms.is_visible j) := by
  induction chunk with
  | nil =>
    intro s
    refine ⟨rfl, rfl, rfl, rfl, rfl, fun j => ⟨fun hj => ?_, fun _ => ⟨rfl, rfl⟩⟩⟩
    obtain ⟨p, hp, _⟩ := hj
    exact absurd hp (List.not_mem_nil p)
  | cons a chunk ih =>
    intro s
    unfold Manager.refreshOwnCells at *
    simp only [List.foldl_cons]
    cases hfind : HashGrid.findCellIndex s.grid a with
    | none =>
      obtain ⟨hg, hn, hp, hpend, hbm, hj⟩ := ih s
      refine ⟨hg, hn, hp, hpend, hbm, fun j => ⟨fun hmem => ?_, fun hmem => ?_⟩⟩
      · obtain ⟨p, hpmem, hfp⟩ := hmem
        rcases List.mem_cons.mp hpmem with rfl | hrest
        · rw [hfind] at hfp; exact absurd hfp (by simp)
        · exact (hj j).1 ⟨p, hrest, hfp⟩
      · refine (hj j).2 fun ⟨p, hrest, hfp⟩ => hmem ⟨p, List.mem_cons_of_mem a hrest, hfp⟩
    | some idx =>
      obtain ⟨hg, hn, hp, hpend, hbm, hj⟩ := ih (Manager.updateCellVisibility s idx)
      rw [uCV_grid, uCV_size, uCV_positions, uCV_pending, uCV_boundary] at *
      refine ⟨hg, hn, hp, hpend, hbm, fun j => ⟨fun hmem => ?_, fun hmem => ?_⟩⟩
      · rcases Decidable.em (∃ p ∈ chunk, HashGrid.findCellIndex s.grid p = some j)
          with hL | hL
        · exact (hj j).1 hL
        · obtain ⟨p, hpmem, hfp⟩ := hmem
          have hja : j = idx := by
            rcases List.mem_cons.mp hpmem with rfl | hrest
            · rw [hfind] at hfp; exact (Option.some.inj hfp).symm
            · exact absurd ⟨p, hrest, hfp⟩ hL
          obtain ⟨hc, hv⟩ := (hj j).2 hL
          rw [hc, hv, uCV_counts, uCV_vis, if_pos hja, if_pos hja, hja]
          exact ⟨rfl, rfl⟩
      · have hjL : ¬∃ p ∈ chunk, HashGrid.findCellIndex s.grid p = some j :=
          fun ⟨p, hrest, hfp⟩ => hmem ⟨p, List.mem_cons_of_mem a hrest, hfp⟩
        have hja : j ≠ idx := by
          intro h
          exact hmem ⟨a, List.mem_cons_self a chunk, h ▸ hfind⟩
        obtain ⟨hc, hv⟩ := (hj j).2 hjL
        rw [hc, hv, uCV_counts, uCV_vis, if_neg hja, if_neg hja]
        exact ⟨rfl, rfl⟩

theorem mem_collect_inner (g : HashGrid) (nps : List Vec3) : ∀ (acc : List ℕ) (j : ℕ),
    (j ∈ nps.foldl
      (fun acc2 neighborPos =>
        if HashGrid.isOccupied g neighborPos then
          match HashGrid.findCellIndex g neighborPos with
          | some neighborIdx =>
              if neighborIdx ∈ acc2 then acc2 else acc2 ++ [neighborIdx]
          | none => acc2
        else acc2)
      acc) ↔
    j ∈ acc ∨ ∃ np ∈ nps, HashGrid.isOccupied g np = true ∧
      HashGrid.findCellIndex g np = some j := by
  induction nps with
  | nil => intro acc j; simp
  | cons a nps ih =>
    intro acc j
    simp only [List.foldl_cons]
    rw [ih]
    simp only [List.mem_cons, exists_eq_or_imp]
    cases hocc : HashGrid.isOccupied g a with
    | false =>
      simp only [hocc, Bool.false_eq_true, if_false, false_and, false_or]
    | true =>
      simp only [hocc, if_true, true_and]
      cases hfind : HashGrid.findCellIndex g a with
      | none =>
        simp only [reduceCtorEq, false_or]
      | some idx =>
        simp only [Option.some.injEq]
        by_cases hmem : idx ∈ acc
        · simp only [if_pos hmem]
          constructor
          · intro h
            rcases h with h | h
            · exact Or.inl h
            · exact Or.inr (Or.inr h)
          · intro h
            rcases h with h | h | h
            · exact Or.inl h
            · exact Or.inl (h ▸ hmem)
            · exact Or.inr h
        · simp only [if_neg hmem, List.mem_append, List.mem_singleton]
          constructor
          · intro h
            rcases h with (h | h) | h
            · exact Or.inl h
            · exact Or.inr (Or.inl h.symm)
            · exact Or.inr (Or.inr h)
          · intro h
            rcases h with h | h | h
            · exact Or.inl (Or.inl h)
            · exact Or.inl (Or.inr h.symm)
            · exact Or.inr h

theorem mem_collect_outer (g : HashGrid) (chunk : List Vec3) : ∀ (acc : List ℕ) (j : ℕ),
    (j ∈ chunk.foldl
      (fun acc pos =>
        (HashGrid.getNeighborPositions pos).foldl
          (fun acc2 neighborPos =>
            if HashGrid.isOccupied g neighborPos then
              match HashGrid.findCellIndex g neighborPos with
              | some neighborIdx =>
                  if neighborIdx ∈ acc2 then acc2 else acc2 ++ [neighborIdx]
              | none => acc2
            else acc2)
          acc)
      acc) ↔
    j ∈ acc ∨ ∃ p ∈ chunk, ∃ np ∈ HashGrid.getNeighborPositions p,
      HashGrid.isOccupied g np = true ∧ HashGrid.findCellIndex g np = some j := by
  induction chunk with
  | nil => intro acc j; simp
  | cons a chunk ih =>
    intro acc j
    simp only [List.foldl_cons]
    rw [ih, mem_collect_inner]
    constructor
    · rintro ((h | ⟨np, hnp, hC⟩) | ⟨p, hp, hD⟩)
      · exact Or.inl h
      · exact Or.inr ⟨a, List.mem_cons_self a chunk, np, hnp, hC⟩
      · exact Or.inr ⟨p, List.mem_cons_of_mem a hp, hD⟩
    · rintro (h | ⟨p, hp, hD⟩)
      · exact Or.inl (Or.inl h)
      · rcases List.mem_cons.mp hp with rfl | hrest
        · exact Or.inl (Or.inr hD)
        · exact Or.inr ⟨p, hrest, hD⟩

theorem mem_collectNeighborIndices (g : HashGrid) (chunk : List Vec3) (j : ℕ) :
    j ∈ Manager.collectNeighborIndices g chunk ↔
      ∃ p ∈ chunk, ∃ np ∈ HashGrid.getNeighborPositions p,
        HashGrid.isOccupied g np = true ∧ HashGrid.findCellIndex g np = some j := by
  unfold Manager.collectNeighborIndices
  rw [mem_collect_outer]
  simp

theorem processChunk_spec (chunk : List Vec3) (s : ManagerState) :
    (Manager.processChunk s chunk).grid = s.grid ∧
    (Manager.processChunk s chunk).transforms.size = s.transforms.size ∧
    (Manager.processChunk s chunk).transforms.positions = s.transforms.positions ∧
    (Manager.processChunk s chunk).pendingNewPositions = s.pendingNewPositions ∧
    (Manager.processChunk s chunk).boundaryManager = s.boundaryManager ∧
    ∀ j,
      (touchedBy s.grid chunk j →
        (Manager.processChunk s chunk).transforms.neighbor_counts j =
          occCount s.grid (s.transforms.positions j) ∧
        (Manager.processChunk s chunk).transforms.is_visible j =
          decide (occCount s.grid (s.transforms.positions j) < 14)) ∧
      (¬touchedBy s.grid chunk j →
        (Manager.processChunk s chunk).transforms.neighbor_counts j =
          s.transforms.neighbor_counts j ∧
        (Manager.processChunk s chunk).transforms.is_visible j =
          s.transforms.is_visible j) := by
  obtain ⟨hg1, hn1, hp1, hpend1, hbm1, hj1⟩ := refreshOwnCells_spec chunk s
  obtain ⟨hg2, hn2, hp2, hpend2, hbm2, hj2⟩ :=
    foldl_uCV_spec (Manager.collectNeighborIndices s.grid chunk)
      (Manager.refreshOwnCells s chunk)
  have hun : Manager.processChunk s chunk =
      (Manager.collectNeighborIndices s.grid chunk).foldl Manager.updateCellVisibility
        (Manager.refreshOwnCells s chunk) := by
    unfold Manager.processChunk
    simp only [hg1]
  rw [hun]
  rw [hg1] at hg2 hj2
  refine ⟨hg2, hn2.trans hn1, hp2.trans hp1, hpend2.trans hpend1, hbm2.trans hbm1,
    fun j => ⟨fun htouch => ?_, fun htouch => ?_⟩⟩
  · by_cases hpass2 : j ∈ Manager.collectNeighborIndices s.grid chunk
    · obtain ⟨hc, hv⟩ := (hj2 j).1 hpass2
      rw [hc, hv, hp1]
      exact ⟨rfl, rfl⟩
    · have hpass1 : ∃ p ∈ chunk, HashGrid.findCellIndex s.grid p = some j := by
        rcases htouch with h1 | h2
        · exact h1
        · exact absurd ((mem_collectNeighborIndices s.grid chunk j).mpr h2) hpass2
      obtain ⟨hc, hv⟩ := (hj2 j).2 hpass2
      obtain ⟨hc1, hv1⟩ := (hj1 j).1 hpass1
      rw [hc, hv, hc1, hv1]
      exact ⟨rfl, rfl⟩
  · have hpass2 : j ∉ Manager.collectNeighborIndices s.grid chunk := fun h =>
      htouch (Or.inr ((mem_collectNeighborIndices s.grid chunk j).mp h))
    have hpass1 : ¬∃ p ∈ chunk, HashGrid.findCellIndex s.grid p = some j := fun h =>
      htouch (Or.inl h)
    obtain ⟨hc, hv⟩ := (hj2 j).2 hpass2
    obtain ⟨hc1, hv1⟩ := (hj1 j).2 hpass1
    rw [hc, hv, hc1, hv1]
    exact ⟨rfl, rfl⟩

theorem touchedBy_append (g : HashGrid) (B1 B2 : List Vec3) (j : ℕ) :
    touchedBy g (B1 ++ B2) j ↔ touchedBy g B1 j ∨ touchedBy g B2 j := by
  unfold touchedBy
  simp only [List.mem_append]
  constructor
  · rintro (⟨p, (hp | hp), hf⟩ | ⟨p, (hp | hp), hrest⟩)
    · exact Or.inl (Or.inl ⟨p, hp, hf⟩)
    · exact Or.inr (Or.inl ⟨p, hp, hf⟩)
    · exact Or.inl (Or.inr ⟨p, hp, hrest⟩)
    · exact Or.inr (Or.inr ⟨p, hp, hrest⟩)
  · rintro ((⟨p, hp, hf⟩ | ⟨p, hp, hrest⟩) | (⟨p, hp, hf⟩ | ⟨p, hp, hrest⟩))
    · exact Or.inl ⟨p, Or.inl hp, hf⟩
    · exact Or.inr ⟨p, Or.inl hp, hrest⟩
    · exact Or.inl ⟨p, Or.inr hp, hf⟩
    · exact Or.inr ⟨p, Or.inr hp, hrest⟩

theorem splitIntoChunksAux_join : ∀ (fuel : ℕ) (l : List Vec3), l.length ≤ fuel →
    (Manager.splitIntoChunksAux fuel l).flatten = l := by
  intro fuel
  induction fuel with
  | zero =>
    intro l hl
    have : l = [] := List.length_eq_zero.mp (Nat.le_zero.mp hl)
    subst this
    rfl
  | succ fuel ih =>
    intro l hl
    cases l with
    | nil => rfl
    | cons a rest =>
      show (((a :: rest).take 1000 :: Manager.splitIntoChunksAux fuel
        ((a :: rest).drop 1000)).flatten = a :: rest)
      rw [List.flatten, ih ((a :: rest).drop 1000) ?_, List.take_append_drop]
      rw [List.length_drop]
      have : (a :: rest).length = rest.length + 1 := List.length_cons a rest
      omega

theorem touchedBy_join (g : HashGrid) (cs : List (List Vec3)) (j : ℕ) :
    touchedBy g cs.flatten j ↔ ∃ c ∈ cs, touchedBy g c j := by
  induction cs with
  | nil =>
    simp only [List.flatten_nil]
    constructor
    · rintro (⟨p, hp, _⟩ | ⟨p, hp, _⟩) <;> exact absurd hp (List.not_mem_nil p)
    · rintro ⟨c, hc, _⟩
      exact absurd hc (List.not_mem_nil c)
  | cons c cs ih =>
    rw [List.flatten_cons, touchedBy_append, ih]
    constructor
    · rintro (h | ⟨c2, hc2, h2⟩)
      · exact ⟨c, List.mem_cons_self c cs, h⟩
      · exact ⟨c2, List.mem_cons_of_mem c hc2, h2⟩
    · rintro ⟨c2, hc2, h2⟩
      rcases List.mem_cons.mp hc2 with rfl | hrest
      · exact Or.inl h2
      · exact Or.inr ⟨c2, hrest, h2⟩

theorem foldl_processChunk_spec (cs : List (List Vec3)) : ∀ s : ManagerState,
    (cs.foldl Manager.processChunk s).grid = s.grid ∧
    (cs.foldl Manager.processChunk s).transforms.size = s.transforms.size ∧
    (cs.foldl Manager.processChunk s).transforms.positions = s.transforms.positions ∧
    (cs.foldl Manager.processChunk s).pendingNewPositions = s.pendingNewPositions ∧
    (cs.foldl Manager.processChunk s).boundaryManager = s.boundaryManager ∧
    ∀ j,
      ((∃ c ∈ cs, touchedBy s.grid c j) →
        (cs.foldl Manager.processChunk s).transforms.neighbor_counts j =
          occCount s.grid (s.transforms.positions j) ∧
        (cs.foldl Manager.processChunk s).transforms.is_visible j =
          decide (occCount s.grid (s.transforms.positions j) < 14)) ∧
      (¬(∃ c ∈ cs, touchedBy s.grid c j) →
        (cs.foldl Manager.processChunk s).transforms.neighbor_counts j =
          s.transforms.neighbor_counts j ∧
        (cs.foldl Manager.processChunk s).transforms.is_visible j =
          s.transforms.is_visible j) := by
  induction cs with
  | nil =>
    intro s
    refine ⟨rfl, rfl, rfl, rfl, rfl, fun j => ⟨fun hj => ?_, fun _ => ⟨rfl, rfl⟩⟩⟩
    obtain ⟨c, hc, _⟩ := hj
    exact absurd hc (List.not_mem_nil c)
  | cons c cs ih =>
    intro s
    simp only [List.foldl_cons]
    obtain ⟨hgc, hnc, hpc, hpendc, hbmc, hjc⟩ := processChunk_spec c s
    obtain ⟨hg, hn, hp, hpend, hbm, hj⟩ := ih (Manager.processChunk s c)
    rw [hgc] at hg hj
    rw [hpc] at hj
    refine ⟨hg, hn.trans hnc, hp.trans hpc, hpend.trans hpendc, hbm.trans hbmc,
      fun j => ⟨fun hmem => ?_, fun hmem => ?_⟩⟩
    · rcases Classical.em (∃ c2 ∈ cs, touchedBy s.grid c2 j) with hL | hL
      · exact (hj j).1 hL
      · have hcj : touchedBy s.grid c j := by
          obtain ⟨c2, hc2, h2⟩ := hmem
          rcases List.mem_cons.mp hc2 with rfl | hrest
          · exact h2
          · exact absurd ⟨c2, hrest, h2⟩ hL
        obtain ⟨hc1, hv1⟩ := (hjc j).1 hcj
        obtain ⟨hc2e, hv2e⟩ := (hj j).2 hL
        rw [hc2e, hv2e, hc1, hv1]
        exact ⟨rfl, rfl⟩
    · have hL : ¬∃ c2 ∈ cs, touchedBy s.grid c2 j := fun ⟨c2, hc2, h2⟩ =>
        hmem ⟨c2, List.mem_cons_of_mem c hc2, h2⟩
      have hcj : ¬touchedBy s.grid c j := fun h =>
        hmem ⟨c, List.mem_cons_self c cs, h⟩
      obtain ⟨hc1, hv1⟩ := (hjc j).2 hcj
      obtain ⟨hc2e, hv2e⟩ := (hj j).2 hL
      rw [hc2e, hv2e, hc1, hv1]
      exact ⟨rfl, rfl⟩

theorem uVFNC_spec (B : List Vec3) (s : ManagerState) :
    (Manager.updateVisibilityForNewCells s B).grid = s.grid ∧
    (Manager.updateVisibilityForNewCells s B).transforms.size = s.transforms.size ∧
    (Manager.updateVisibilityForNewCells s B).transforms.positions =
      s.transforms.positions ∧
    (Manager.updateVisibilityForNewCells s B).pendingNewPositions =
      s.pendingNewPositions ∧
    (Manager.updateVisibilityForNewCells s B).boundaryManager = s.boundaryManager ∧
    ∀ j,
      (touchedBy s.grid B j →
        (Manager.updateVisibilityForNewCells s B).transforms.neighbor_counts j =
          occCount s.grid (s.transforms.positions j) ∧
        (Manager.updateVisibilityForNewCells s B).transforms.is_visible j =
          decide (occCount s.grid (s.transforms.positions j) < 14)) ∧
      (¬touchedBy s.grid B j →
        (Manager.updateVisibilityForNewCells s B).transforms.neighbor_counts j =
          s.transforms.neighbor_counts j ∧
        (Manager.updateVisibilityForNewCells s B).transforms.is_visible j =
          s.transforms.is_visible j) := by
  have hjoin : (Manager.splitIntoChunks B).flatten = B :=
    splitIntoChunksAux_join B.length B (Nat.le_refl _)
  have htb : ∀ j, touchedBy s.grid B j ↔
      ∃ c ∈ Manager.splitIntoChunks B, touchedBy s.grid c j := by
    intro j
    rw [← hjoin, touchedBy_join]
    rw [hjoin]
  obtain ⟨hg, hn, hp, hpend, hbm, hj⟩ := foldl_processChunk_spec (Manager.splitIntoChunks B) s
  refine ⟨hg, hn, hp, hpend, hbm, fun j => ⟨fun ht => ?_, fun ht => ?_⟩⟩
  · exact (hj j).1 ((htb j).mp ht)
  · exact (hj j).2 (fun h => ht ((htb j).mpr h))

theorem eps2_pos : (0 : ℚ) < HashGrid.POSITION_EPSILON ^ 2 := by
  norm_num [HashGrid.POSITION_EPSILON]

theorem dist2_self (q : Vec3) : dist2 q q = 0 := by
  simp [dist2]

theorem closeEnough_iff (c : HashGrid.CellData) (q : Vec3) :
    HashGrid.closeEnough c q = true ↔
      dist2 c.position q < HashGrid.POSITION_EPSILON ^ 2 := by
  unfold HashGrid.closeEnough
  exact decide_eq_true_iff

theorem storedAt_iff (s : ManagerState) (q : Vec3) :
    storedAt s q = true ↔
      ∃ i, i < s.transforms.size ∧ s.transforms.positions i = q := by
  unfold storedAt
  rw [List.any_eq_true]
  constructor
  · rintro ⟨i, hi, hdec⟩
    exact ⟨i, List.mem_range.mp hi, of_decide_eq_true hdec⟩
  · rintro ⟨i, hi, heq⟩
    exact ⟨i, List.mem_range.mpr hi, decide_eq_true heq⟩

theorem length_filterMap_eq_countP {α β : Type} (f : α → Option β) (l : List α) :
    (l.filterMap f).length = l.countP (fun a => (f a).isSome) := by
  induction l with
  | nil => rfl
  | cons a l ih =>
    cases hfa : f a <;>
      simp [List.filterMap_cons, hfa, List.countP_cons, ih]

attribute [irreducible] dist2 HashGrid.closeEnough HashGrid.POSITION_EPSILON

theorem bucket_mem_iff (s : ManagerState)
    (hbucket : ∀ b, s.grid.spatialHash b =
      ((List.range s.transforms.size).filter
        (fun i => HashGrid.positionToHashIndex (s.transforms.positions i) = b)).map
        (fun i => ⟨i, s.transforms.positions i⟩))
    (b : ℕ) (c : HashGrid.CellData) :
    c ∈ s.grid.spatialHash b ↔
      ∃ i, i < s.transforms.size ∧
        HashGrid.positionToHashIndex (s.transforms.positions i) = b ∧
        c = ⟨i, s.transforms.positions i⟩ := by
  rw [hbucket b]
  constructor
  · intro hc
    obtain ⟨i, hi, rfl⟩ := List.mem_map.mp hc
    obtain ⟨hir, hih⟩ := List.mem_filter.mp hi
    exact ⟨i, List.mem_range.mp hir, of_decide_eq_true hih, rfl⟩
  · rintro ⟨i, hi, hih, rfl⟩
    exact List.mem_map.mpr ⟨i, List.mem_filter.mpr ⟨List.mem_range.mpr hi,
      decide_eq_true hih⟩, rfl⟩

theorem hash_isOccupied_char (s : ManagerState)
    (hbucket : ∀ b, s.grid.spatialHash b =
      ((List.range s.transforms.size).filter
        (fun i => HashGrid.positionToHashIndex (s.transforms.positions i) = b)).map
        (fun i => ⟨i, s.transforms.positions i⟩))
    (q : Vec3)
    (hq : ∀ i, i < s.transforms.size →
      dist2 (s.transforms.positions i) q < HashGrid.POSITION_EPSILON ^ 2 →
      s.transforms.positions i = q) :
    (HashGrid.isOccupied s.grid q = true ↔
      ∃ i, i < s.transforms.size ∧ s.transforms.positions i = q) := by
  unfold HashGrid.isOccupied
  rw [List.any_eq_true]
  constructor
  · rintro ⟨c, hc, hclose⟩
    obtain ⟨i, hi, _, rfl⟩ := (bucket_mem_iff s hbucket _ c).mp hc
    exact ⟨i, hi, hq i hi ((closeEnough_iff _ q).mp hclose)⟩
  · rintro ⟨i, hi, heq⟩
    refine ⟨⟨i, s.transforms.positions i⟩, (bucket_mem_iff s hbucket _ _).mpr
      ⟨i, hi, by rw [heq], rfl⟩, ?_⟩
    rw [closeEnough_iff]
    show dist2 (s.transforms.positions i) q < HashGrid.POSITION_EPSILON ^ 2
    rw [heq, dist2_self]
    exact eps2_pos

theorem hash_findCellIndex_char (s : ManagerState)
    (hbucket : ∀ b, s.grid.spatialHash b =
      ((List.range s.transforms.size).filter
        (fun i => HashGrid.positionToHashIndex (s.transforms.positions i) = b)).map
        (fun i => ⟨i, s.transforms.positions i⟩))
    (hdistinct : ∀ i j, i < s.transforms.size → j < s.transforms.size →
      s.transforms.positions i = s.transforms.positions j → i = j)
    (q : Vec3)
    (hq : ∀ i, i < s.transforms.size →
      dist2 (s.transforms.positions i) q < HashGrid.POSITION_EPSILON ^ 2 →
      s.transforms.positions i = q) :
    ∀ j, (HashGrid.findCellIndex s.grid q = some j ↔
      j < s.transforms.size ∧ s.transforms.positions j = q) := by
  intro j
  unfold HashGrid.findCellIndex
  constructor
  · intro hfind
    obtain ⟨c, hcfind, rfl⟩ := Option.map_eq_some'.mp hfind
    have hc := List.mem_of_find?_eq_some hcfind
    have hclose := List.find?_some hcfind
    obtain ⟨i, hi, _, rfl⟩ := (bucket_mem_iff s hbucket _ c).mp hc
    exact ⟨hi, hq i hi ((closeEnough_iff _ q).mp hclose)⟩
  · rintro ⟨hj, heq⟩
    have hexists : ∃ c ∈ s.grid.spatialHash (HashGrid.positionToHashIndex q),
        HashGrid.closeEnough c q = true := by
      refine ⟨⟨j, s.transforms.positions j⟩, (bucket_mem_iff s hbucket _ _).mpr
        ⟨j, hj, by rw [heq], rfl⟩, ?_⟩
      rw [closeEnough_iff]
      show dist2 (s.transforms.positions j) q < HashGrid.POSITION_EPSILON ^ 2
      rw [heq, dist2_self]
      exact eps2_pos
    have hsome : ((s.grid.spatialHash (HashGrid.positionToHashIndex q)).find?
        (fun c => HashGrid.closeEnough c q)).isSome = true := by
      rw [List.find?_isSome]
      obtain ⟨c, hc, hcl⟩ := hexists
      exact ⟨c, hc, hcl⟩
    obtain ⟨c, hcfind⟩ := Option.isSome_iff_exists.mp hsome
    have hc := List.mem_of_find?_eq_some hcfind
    have hclose := List.find?_some hcfind
    obtain ⟨i, hi, _, rfl⟩ := (bucket_mem_iff s hbucket _ c).mp hc
    have hpi : s.transforms.positions i = q := hq i hi ((closeEnough_iff _ q).mp hclose)
    have hij : i = j := hdistinct i j hi hj (hpi.trans heq.symm)
    rw [hcfind]
    simp [hij]

theorem occ_len_char (s : ManagerState)
    (hbucket : ∀ b, s.grid.spatialHash b =
      ((List.range s.transforms.size).filter
        (fun i => HashGrid.positionToHashIndex (s.transforms.positions i) = b)).map
        (fun i => ⟨i, s.transforms.positions i⟩))
    (p : Vec3)
    (hq : ∀ d ∈ HashGrid.neighborOffsets, ∀ i, i < s.transforms.size →
      dist2 (s.transforms.positions i) (Vector3Add p d) < HashGrid.POSITION_EPSILON ^ 2 →
      s.transforms.positions i = Vector3Add p d) :
    (HashGrid.getOccupiedNeighbors s.grid p).length =
      HashGrid.neighborOffsets.countP fun d => storedAt s (Vector3Add p d) := by
  unfold HashGrid.getOccupiedNeighbors
  rw [hash_getNeighborPositions_eq_map, List.filterMap_map, length_filterMap_eq_countP]
  refine List.countP_congr ?_
  intro d hd
  show (((s.grid.spatialHash (HashGrid.positionToHashIndex (Vector3Add p d))).find?
      (fun cell => HashGrid.closeEnough cell (Vector3Add p d))).isSome = true) ↔
    (storedAt s (Vector3Add p d) = true)
  rw [List.find?_isSome, storedAt_iff]
  constructor
  · rintro ⟨c, hc, hclose⟩
    obtain ⟨i, hi, _, rfl⟩ := (bucket_mem_iff s hbucket _ c).mp hc
    exact ⟨i, hi, hq d hd i hi ((closeEnough_iff _ _).mp hclose)⟩
  · rintro ⟨i, hi, heq⟩
    refine ⟨⟨i, s.transforms.positions i⟩, (bucket_mem_iff s hbucket _ _).mpr
      ⟨i, hi, by rw [heq], rfl⟩, ?_⟩
    rw [closeEnough_iff]
    show dist2 (s.transforms.positions i) (Vector3Add p d) < HashGrid.POSITION_EPSILON ^ 2
    rw [heq, dist2_self]
    exact eps2_pos

theorem occCount_char (s : ManagerState)
    (hbucket : ∀ b, s.grid.spatialHash b =
      ((List.range s.transforms.size).filter
        (fun i => HashGrid.positionToHashIndex (s.transforms.positions i) = b)).map
        (fun i => ⟨i, s.transforms.positions i⟩))
    (p : Vec3)
    (hq : ∀ d ∈ HashGrid.neighborOffsets, ∀ i, i < s.transforms.size →
      dist2 (s.transforms.positions i) (Vector3Add p d) < HashGrid.POSITION_EPSILON ^ 2 →
      s.transforms.positions i = Vector3Add p d) :
    occCount s.grid p =
      ((HashGrid.neighborOffsets.countP fun d => storedAt s (Vector3Add p d) : ℕ) : ℤ) := by
  unfold occCount
  rw [occ_len_char s hbucket p hq]

theorem addOct_of_skip (s : ManagerState) (pos : Vec3)
    (h : (!HashGrid.isOccupied s.grid pos && Manager.isWithinBoundary s pos) = false) :
    Manager.addOctahedron s pos = s := by
  unfold Manager.addOctahedron
  rw [h]
  simp

theorem addOct_of_free (s : ManagerState) (pos : Vec3)
    (h : (!HashGrid.isOccupied s.grid pos && Manager.isWithinBoundary s pos) = true) :
    Manager.addOctahedron s pos =
      { s with
        transforms := s.transforms.add pos
        grid := HashGrid.insert s.grid pos s.transforms.size } := by
  unfold Manager.addOctahedron
  rw [h]
  simp

theorem foldl_addOct_frame (B : List Vec3) : ∀ s : ManagerState,
    (B.foldl Manager.addOctahedron s).pendingNewPositions = s.pendingNewPositions ∧
    (B.foldl Manager.addOctahedron s).boundaryManager = s.boundaryManager ∧
    s.transforms.size ≤ (B.foldl Manager.addOctahedron s).transforms.size ∧
    (∀ i, i < s.transforms.size →
      (B.foldl Manager.addOctahedron s).transforms.positions i =
        s.transforms.positions i ∧
      (B.foldl Manager.addOctahedron s).transforms.neighbor_counts i =
        s.transforms.neighbor_counts i ∧
      (B.foldl Manager.addOctahedron s).transforms.is_visible i =
        s.transforms.is_visible i) ∧
    (∀ i, s.transforms.size ≤ i → i < (B.foldl Manager.addOctahedron s).transforms.size →
      (B.foldl Manager.addOctahedron s).transforms.positions i ∈ B) := by
  induction B with
  | nil =>
    intro s
    exact ⟨rfl, rfl, Nat.le_refl _, fun i _ => ⟨rfl, rfl, rfl⟩,
      fun i hle hlt => absurd hlt (Nat.not_lt.mpr hle)⟩
  | cons b B ih =>
    intro s
    simp only [List.foldl_cons]
    cases hguard : (!HashGrid.isOccupied s.grid b && Manager.isWithinBoundary s b) with
    | false =>
      rw [addOct_of_skip s b hguard]
      obtain ⟨h1, h2, h3, h4, h5⟩ := ih s
      exact ⟨h1, h2, h3, h4, fun i hle hlt => List.mem_cons_of_mem b (h5 i hle hlt)⟩
    | true =>
      rw [addOct_of_free s b hguard]
      obtain ⟨h1, h2, h3, h4, h5⟩ := ih
        { s with
          transforms := s.transforms.add b
          grid := HashGrid.insert s.grid b s.transforms.size }
      refine ⟨h1, h2, Nat.le_trans (Nat.le_succ _) h3, fun i hi => ?_, fun i hle hlt => ?_⟩
      · obtain ⟨hp, hc, hv⟩ := h4 i (Nat.lt_succ_of_lt hi)
        have hne : i ≠ s.transforms.size := Nat.ne_of_lt hi
        rw [hp, hc, hv]
        simp [TransformData.add, hne]
      · rcases Nat.lt_or_ge i (s.transforms.size + 1) with hi1 | hi1
        · have hieq : i = s.transforms.size := Nat.le_antisymm (Nat.lt_succ_iff.mp hi1) hle
          obtain ⟨hp, _, _⟩ := h4 i hi1
          rw [hp, hieq]
          simp only [TransformData.add, if_pos rfl]
          exact List.mem_cons_self b B
        · exact List.mem_cons_of_mem b (h5 i hi1 hlt)

theorem wellAligned_self_queries (P : List Vec3) (hWA : WellAligned P)
    (s : ManagerState) (hmem : ∀ i, i < s.transforms.size → s.transforms.positions i ∈ P)
    (q : Vec3) (hq : q ∈ P) :
    ∀ i, i < s.transforms.size →
      dist2 (s.transforms.positions i) q < HashGrid.POSITION_EPSILON ^ 2 →
      s.transforms.positions i = q := by
  intro i hi hdist
  have := hWA.1 q hq (s.transforms.positions i) (hmem i hi)
  have hsym : dist2 q (s.transforms.positions i) < HashGrid.POSITION_EPSILON ^ 2 := by
    have hcomm : dist2 q (s.transforms.positions i) = dist2 (s.transforms.positions i) q := by
      unfold dist2
      ring
    rw [hcomm]
    exact hdist
  exact (this hsym).symm

theorem wellAligned_offset_queries (P : List Vec3) (hWA : WellAligned P)
    (s : ManagerState) (hmem : ∀ i, i < s.transforms.size → s.transforms.positions i ∈ P)
    (p : Vec3) (hp : p ∈ P) :
    ∀ d ∈ HashGrid.neighborOffsets, ∀ i, i < s.transforms.size →
      dist2 (s.transforms.positions i) (Vector3Add p d) < HashGrid.POSITION_EPSILON ^ 2 →
      s.transforms.positions i = Vector3Add p d := by
  intro d hd i hi hdist
  exact hWA.2 p hp (s.transforms.positions i) (hmem i hi) d hd hdist

theorem addOct_preserves_StoreGrid (P : List Vec3) (hWA : WellAligned P)
    (s : ManagerState) (pos : Vec3) (hpos : pos ∈ P) (hSG : StoreGrid P s) :
    StoreGrid P (Manager.addOctahedron s pos) := by
  obtain ⟨hmem, hdistinct, hbucket⟩ := hSG
  cases hguard : (!HashGrid.isOccupied s.grid pos && Manager.isWithinBoundary s pos) with
  | false => rw [addOct_of_skip s pos hguard]; exact ⟨hmem, hdistinct, hbucket⟩
  | true =>
    rw [addOct_of_free s pos hguard]
    have hocc : HashGrid.isOccupied s.grid pos = false := by
      cases hx : HashGrid.isOccupied s.grid pos with
      | false => rfl
      | true => rw [hx] at hguard; simp at hguard
    have hnostore : ¬∃ i, i < s.transforms.size ∧ s.transforms.positions i = pos := by
      intro hex
      have := (hash_isOccupied_char s hbucket pos
        (wellAligned_self_queries P hWA s hmem pos hpos)).mpr hex
      rw [hocc] at this
      exact absurd this (by simp)
    constructor
    · intro i hi
      simp only [TransformData.add] at hi ⊢
      by_cases hieq : i = s.transforms.size
      · simp only [hieq, if_pos rfl]
        exact hpos
      · simp only [if_neg hieq]
        exact hmem i (Nat.lt_of_le_of_ne (Nat.lt_succ_iff.mp hi) hieq)
    constructor
    · intro i j hi hj hij
      simp only [TransformData.add] at hi hj hij
      by_cases hieq : i = s.transforms.size <;> by_cases hjeq : j = s.transforms.size
      · rw [hieq, hjeq]
      · rw [if_pos hieq, if_neg hjeq] at hij
        exact absurd ⟨j, Nat.lt_of_le_of_ne (Nat.lt_succ_iff.mp hj) hjeq, hij.symm⟩ hnostore
      · rw [if_neg hieq, if_pos hjeq] at hij
        exact absurd ⟨i, Nat.lt_of_le_of_ne (Nat.lt_succ_iff.mp hi) hieq, hij⟩ hnostore
      · rw [if_neg hieq, if_neg hjeq] at hij
        exact hdistinct i j (Nat.lt_of_le_of_ne (Nat.lt_succ_iff.mp hi) hieq)
          (Nat.lt_of_le_of_ne (Nat.lt_succ_iff.mp hj) hjeq) hij
    · intro b
      simp only [HashGrid.insert, TransformData.add, List.range_succ, List.filter_append,
        List.map_append]
      have hfilter_old :
          ((List.range s.transforms.size).filter fun i =>
            HashGrid.positionToHashIndex
              (if i = s.transforms.size then pos else s.transforms.positions i) = b) =
          ((List.range s.transforms.size).filter fun i =>
            HashGrid.positionToHashIndex (s.transforms.positions i) = b) := by
        refine List.filter_congr ?_
        intro i hi
        have : i ≠ s.transforms.size := Nat.ne_of_lt (List.mem_range.mp hi)
        simp [this]
      rw [hfilter_old]
      have hmap_old : ∀ l : List ℕ, (∀ i ∈ l, i < s.transforms.size) →
          (l.map fun i => (⟨i, if i = s.transforms.size then pos
              else s.transforms.positions i⟩ : HashGrid.CellData)) =
          l.map fun i => ⟨i, s.transforms.positions i⟩ := by
        intro l hl
        refine List.map_congr_left ?_
        intro i hi
        have : i ≠ s.transforms.size := Nat.ne_of_lt (hl i hi)
        simp [this]
      by_cases hb : b = HashGrid.positionToHashIndex pos
      · rw [if_pos hb, hbucket b, hmap_old _ (fun i hi =>
          List.mem_range.mp (List.mem_filter.mp hi).1)]
        have : (List.filter (fun i => decide (HashGrid.positionToHashIndex
            (if i = s.transforms.size then pos else s.transforms.positions i) = b))
            [s.transforms.size]) = [s.transforms.size] := by
          simp [hb]
        rw [this]
        simp
      · rw [if_neg hb, hbucket b, hmap_old _ (fun i hi =>
          List.mem_range.mp (List.mem_filter.mp hi).1)]
        have : (List.filter (fun i => decide (HashGrid.positionToHashIndex
            (if i = s.transforms.size then pos else s.transforms.positions i) = b))
            [s.transforms.size]) = [] := by
          simp [Ne.symm hb]
        rw [this]
        simp

theorem foldl_addOct_preserves_StoreGrid (P : List Vec3) (hWA : WellAligned P)
    (B : List Vec3) (hBP : ∀ p ∈ B, p ∈ P) : ∀ s : ManagerState, StoreGrid P s →
    StoreGrid P (B.foldl Manager.addOctahedron s) := by
  induction B with
  | nil => intro s hs; exact hs
  | cons b B ih =>
    intro s hs
    simp only [List.foldl_cons]
    exact ih (fun p hp => hBP p (List.mem_cons_of_mem b hp)) _
      (addOct_preserves_StoreGrid P hWA s b (hBP b (List.mem_cons_self b B)) hs)

theorem StoreGrid_transfer (P : List Vec3) (s t : ManagerState)
    (hg : t.grid = s.grid) (hn : t.transforms.size = s.transforms.size)
    (hp : t.transforms.positions = s.transforms.positions)
    (hs : StoreGrid P s) : StoreGrid P t := by
  obtain ⟨h1, h2, h3⟩ := hs
  refine ⟨?_, ?_, ?_⟩
  · intro i hi
    rw [hp]
    exact h1 i (hn ▸ hi)
  · intro i j hi hj hij
    rw [hp] at hij
    exact h2 i j (hn ▸ hi) (hn ▸ hj) hij
  · intro b
    rw [hg, hn, hp]
    exact h3 b

theorem commitBatch_preserves (P : List Vec3) (hWA : WellAligned P) (B : List Vec3)
    (hBP : ∀ p ∈ B, p ∈ P) (s : ManagerState)
    (hSG : StoreGrid P s) (hCC : CountsCorrect s) :
    StoreGrid P (Manager.commitBatch s B) ∧ CountsCorrect (Manager.commitBatch s B) := by
  unfold Manager.commitBatch Manager.applyPendingChanges
  by_cases hB : B = []
  · subst hB
    simp only [if_pos rfl]
    exact ⟨⟨hSG.1, hSG.2.1, hSG.2.2⟩, hCC⟩
  · simp only [if_neg hB]
    set s1 : ManagerState := { s with pendingNewPositions := [] } with hs1def
    have hSG1 : StoreGrid P s1 := ⟨hSG.1, hSG.2.1, hSG.2.2⟩
    have hCC1 : CountsCorrect s1 := hCC
    set s2 : ManagerState := B.foldl Manager.addOctahedron s1 with hs2def
    have hSG2 : StoreGrid P s2 := foldl_addOct_preserves_StoreGrid P hWA B hBP s1 hSG1
    obtain ⟨hpend2, hbm2, hle2, hold2, hnew2⟩ := foldl_addOct_frame B s1
    rw [← hs2def] at hpend2 hbm2 hle2 hold2 hnew2
    obtain ⟨hg3, hn3, hp3, hpend3, hbm3, hj3⟩ := uVFNC_spec B s2
    constructor
    · exact StoreGrid_transfer P s2 _ hg3 hn3 hp3 hSG2
    · intro j hj
      rw [hn3] at hj
      rw [hg3, hp3]
      rcases Classical.em (touchedBy s2.grid B j) with htouch | htouch
      · exact (hj3 j).1 htouch
      · obtain ⟨hcj, hvj⟩ := (hj3 j).2 htouch
        rw [hcj, hvj]
        have hjold : j < s1.transforms.size := by
          by_contra hge
          have hge2 : s1.transforms.size ≤ j := Nat.le_of_not_lt hge
          have hjB : s2.transforms.positions j ∈ B := hnew2 j hge2 hj
          have hfind : HashGrid.findCellIndex s2.grid (s2.transforms.positions j) =
              some j := by
            refine (hash_findCellIndex_char s2 hSG2.2.2 hSG2.2.1 _
              (wellAligned_self_queries P hWA s2 hSG2.1 _ (hSG2.1 j hj)) j).mpr ⟨hj, rfl⟩
          exact htouch (Or.inl ⟨s2.transforms.positions j, hjB, hfind⟩)
        obtain ⟨hpold, hcold, hvold⟩ := hold2 j hjold
        rw [hpold, hcold, hvold]
        obtain ⟨hcc, hcv⟩ := hCC1 j hjold
        rw [hcc, hcv]
        have hocc_eq : occCount s1.grid (s1.transforms.positions j) =
            occCount s2.grid (s1.transforms.positions j) := by
          have hpj : s1.transforms.positions j ∈ P := hSG1.1 j hjold
          rw [occCount_char s1 hSG1.2.2 _
            (wellAligned_offset_queries P hWA s1 hSG1.1 _ hpj),
            occCount_char s2 hSG2.2.2 _
            (wellAligned_offset_queries P hWA s2 hSG2.1 _ hpj)]
          have hcount : (HashGrid.neighborOffsets.countP fun d =>
              storedAt s1 (Vector3Add (s1.transforms.positions j) d)) =
              HashGrid.neighborOffsets.countP fun d =>
              storedAt s2 (Vector3Add (s1.transforms.positions j) d) := by
            refine List.countP_congr ?_
            intro d hd
            show storedAt s1 (Vector3Add (s1.transforms.positions j) d) = true ↔
              storedAt s2 (Vector3Add (s1.transforms.positions j) d) = true
            rw [storedAt_iff, storedAt_iff]
            constructor
            · rintro ⟨i, hi, heq⟩
              exact ⟨i, Nat.lt_of_lt_of_le hi hle2, ((hold2 i hi).1).trans heq⟩
            · rintro ⟨i, hi, heq⟩
              by_cases hiold : i < s1.transforms.size
              · exact ⟨i, hiold, ((hold2 i hiold).1).symm.trans heq⟩
              · exfalso
                have hge2 : s1.transforms.size ≤ i := Nat.le_of_not_lt hiold
                have hiB : s2.transforms.positions i ∈ B := hnew2 i hge2 hi
                have hnp : Vector3Add (s2.transforms.positions i) (Vector3Neg d) =
                    s1.transforms.positions j := by
                  rw [heq]
                  exact add_neg_cancel_vec _ d
                have hmemN : s1.transforms.positions j ∈
                    HashGrid.getNeighborPositions (s2.transforms.positions i) := by
                  rw [hash_getNeighborPositions_eq_map]
                  exact List.mem_map.mpr ⟨Vector3Neg d, neg_mem_neighborOffsets d hd, hnp⟩
                have hjpos2 : s2.transforms.positions j = s1.transforms.positions j :=
                  (hold2 j hjold).1
                have hjlt2 : j < s2.transforms.size := Nat.lt_of_lt_of_le hjold hle2
                have hoccj : HashGrid.isOccupied s2.grid (s1.transforms.positions j) =
                    true := by
                  refine (hash_isOccupied_char s2 hSG2.2.2 _
                    (wellAligned_self_queries P hWA s2 hSG2.1 _ hpj)).mpr
                    ⟨j, hjlt2, hjpos2⟩
                have hfindj : HashGrid.findCellIndex s2.grid
                    (s1.transforms.positions j) = some j := by
                  refine (hash_findCellIndex_char s2 hSG2.2.2 hSG2.2.1 _
                    (wellAligned_self_queries P hWA s2 hSG2.1 _ hpj) j).mpr
                    ⟨hjlt2, hjpos2⟩
                exact htouch (Or.inr ⟨s2.transforms.positions i, hiB,
                  s1.transforms.positions j, hmemN, hoccj, hfindj⟩)
          rw [hcount]
        rw [hocc_eq]
        exact ⟨rfl, rfl⟩

theorem initialState_StoreGrid (P : List Vec3) (bm : BoundaryManager) :
    StoreGrid P (Manager.initialState bm) ∧ CountsCorrect (Manager.initialState bm) := by
  refine ⟨⟨?_, ?_, ?_⟩, ?_⟩
  · intro i hi
    exact absurd hi (by simp [Manager.initialState, TransformData.empty])
  · intro i j hi _ _
    exact absurd hi (by simp [Manager.initialState, TransformData.empty])
  · intro b
    simp [Manager.initialState, TransformData.empty, HashGrid.emptyGrid]
  · intro i hi
    exact absurd hi (by simp [Manager.initialState, TransformData.empty])

theorem commitBatches_preserves (P : List Vec3) (hWA : WellAligned P)
    (batches : List (List Vec3)) (hBP : ∀ B ∈ batches, ∀ p ∈ B, p ∈ P) :
    ∀ s : ManagerState, StoreGrid P s → CountsCorrect s →
    StoreGrid P (Manager.commitBatches s batches) ∧
      CountsCorrect (Manager.commitBatches s batches) := by
  induction batches with
  | nil => intro s hSG hCC; exact ⟨hSG, hCC⟩
  | cons B batches ih =>
    intro s hSG hCC
    simp only [Manager.commitBatches, List.foldl_cons]
    have hstep := commitBatch_preserves P hWA B
      (hBP B (List.mem_cons_self B batches)) s hSG hCC
    exact ih (fun B' hB' => hBP B' (List.mem_cons_of_mem B hB'))
      (Manager.commitBatch s B) hstep.1 hstep.2

/-- C1.  Corrected form: when the committed positions are exactly aligned
(`WellAligned` — the regime the epsilon-based spatial hash is designed
for), committing any sequence of batches through the manager, each batch
followed by the incremental `updateVisibilityForNewCells` pass, leaves
every cell with exactly the `(neighborCount, visible)` pair a full
`updateVisibility` rescan over the final state would produce.  The
unconditional claim is refuted by
`C1_counterexample_drifted_positions`. -/
theorem C1_amended_incremental_equals_full_rescan (bm : BoundaryManager)
    (batches : List (List Vec3)) (hWA : WellAligned batches.flatten) :
    ∀ i, i < (Manager.commitBatches (Manager.initialState bm) batches).transforms.size →
      (Manager.commitBatches (Manager.initialState bm) batches).transforms.neighbor_counts
          i =
        (Manager.updateVisibility
          (Manager.commitBatches (Manager.initialState bm) batches)).transforms.neighbor_counts
          i ∧
      (Manager.commitBatches (Manager.initialState bm) batches).transforms.is_visible i =
        (Manager.updateVisibility
          (Manager.commitBatches (Manager.initialState bm) batches)).transforms.is_visible
          i := by
  intro i hi
  set s := Manager.commitBatches (Manager.initialState bm) batches with hs
  have hinit := initialState_StoreGrid batches.flatten bm
  have hinv := commitBatches_preserves batches.flatten hWA batches
    (fun B hB p hp => List.mem_flatten.mpr ⟨B, hB, hp⟩)
    (Manager.initialState bm) hinit.1 hinit.2
  rw [← hs] at hinv
  obtain ⟨hcc, hcv⟩ := hinv.2 i hi
  obtain ⟨_, _, _, _, _, hj⟩ := foldl_uCV_spec (List.range s.transforms.size) s
  obtain ⟨hrc, hrv⟩ := (hj i).1 (List.mem_range.mpr hi)
  show s.transforms.neighbor_counts i =
      ((List.range s.transforms.size).foldl Manager.updateCellVisibility
        s).transforms.neighbor_counts i ∧
    s.transforms.is_visible i =
      ((List.range s.transforms.size).foldl Manager.updateCellVisibility
        s).transforms.is_visible i
  rw [hrc, hrv, hcc, hcv]
  exact ⟨rfl, rfl⟩

section ComputeC1

attribute [local semireducible] Rat.add Rat.mul Rat.inv Rat.sub
attribute [local semireducible] dist2 HashGrid.closeEnough HashGrid.POSITION_EPSILON
attribute [local semireducible] HashGrid.positionToHashIndex

theorem C1_amended_incremental_equals_full_rescan_witness :
    WellAligned ([[⟨0, 0, 0⟩]] : List (List Vec3)).flatten ∧
    (∀ i,
      i < (Manager.commitBatches (Manager.initialState BoundaryManager.disabledManager)
        [[⟨0, 0, 0⟩]]).transforms.size →
      (Manager.commitBatches (Manager.initialState BoundaryManager.disabledManager)
          [[⟨0, 0, 0⟩]]).transforms.neighbor_counts i =
        (Manager.updateVisibility
          (Manager.commitBatches (Manager.initialState BoundaryManager.disabledManager)
            [[⟨0, 0, 0⟩]])).transforms.neighbor_counts i ∧
      (Manager.commitBatches (Manager.initialState BoundaryManager.disabledManager)
          [[⟨0, 0, 0⟩]]).transforms.is_visible i =
        (Manager.updateVisibility
          (Manager.commitBatches (Manager.initialState BoundaryManager.disabledManager)
            [[⟨0, 0, 0⟩]])).transforms.is_visible i) :=
  ⟨by unfold WellAligned; decide,
    C1_amended_incremental_equals_full_rescan BoundaryManager.disabledManager
      [[⟨0, 0, 0⟩]] (by unfold WellAligned; decide)⟩

end ComputeC1

section ComputeC1cx

attribute [local semireducible] Rat.add Rat.mul Rat.inv Rat.sub
attribute [local semireducible] dist2 HashGrid.closeEnough HashGrid.POSITION_EPSILON
attribute [local semireducible] HashGrid.positionToHashIndex

/-- C1, counterexample to the unconditional claim: with float-drifted
positions, after committing the parent and then its hexagonal-neighbor
child in two batches (each followed by the incremental
`updateVisibilityForNewCells` pass), the parent's stored `neighborCount`
is 0, but a full `updateVisibility` rescan over the final state computes
1: the parent lies within `POSITION_EPSILON` of the child's neighbor
slot, yet quantizes to a different spatial-hash bucket than that slot, so
the incremental pass's occupied-neighbor query misses it and never
revisits the parent; the full rescan queries from the parent's own
position and does find the child. -/
theorem C1_counterexample_drifted_positions :
    driftedRunState.transforms.neighbor_counts 0 = 0 ∧
    (Manager.updateVisibility driftedRunState).transforms.neighbor_counts 0 = 1 := by
  constructor <;> decide

end ComputeC1cx
